import Mathlib

/-!
Verification of the MLops-Stock-Forecasting pipeline.

We shallowly embed the feature-engineering, training, prediction and serving
code of the repository.  A pandas `Series` of floats is modelled as a
`List (Option ℚ)` (`none` = NaN / undefined; exact rationals stand in for
IEEE doubles, and a division by zero — which in floats yields `inf`/NaN — is
modelled as `none`).  A pandas `DataFrame` is modelled column-wise as an
ordered association list of named columns; the (date) row index is the list
position, since the tables are date-ordered with unique dates.
-/

/-- A pandas Series: one table column, entries may be undefined (NaN). -/
abbrev Col : Type := List (Option ℚ)

/-- A pandas DataFrame: ordered list of named columns. -/
abbrev Frame : Type := List (String × Col)

/-- Value of a column at row `i` (undefined when out of range or NaN). -/
def colAt (c : Col) (i : ℕ) : Option ℚ := (c.get? i).join

/-- Column lookup `df[name]`, `none` when the column is absent. -/
def getCol : Frame → String → Option Col
  | [], _ => none
  | p :: r, nm => if p.1 = nm then some p.2 else getCol r nm

/-- Column lookup `df[name]` raising pandas' `KeyError` when absent. -/
def getColE (f : Frame) (nm : String) : Except String Col :=
  match getCol f nm with
  | some c => .ok c
  | none => .error ("KeyError: " ++ nm)

/-- `getCol f nm` with default `[]` (for stating concrete evaluations). -/
def getColD (f : Frame) (nm : String) : Col := (getCol f nm).getD []

/-- Replace an existing column in place (keeping its position). -/
def replaceCol (f : Frame) (nm : String) (c : Col) : Frame :=
  f.map (fun p => if p.1 = nm then (nm, c) else p)

/-- Column assignment `df[name] = c`: pandas replaces an existing column in
place and appends a new one at the end. -/
def setCol (f : Frame) (nm : String) (c : Col) : Frame :=
  match getCol f nm with
  | some _ => replaceCol f nm c
  | none => f ++ [(nm, c)]

/-- Number of rows of a frame (length of its first column; all columns of a
well-formed frame have equal length). -/
def frameRows : Frame → ℕ
  | [] => 0
  | p :: _ => p.2.length

/-- Sequence a list of optional values: `some` iff no entry is NaN. -/
def allSome : List (Option ℚ) → Option (List ℚ)
  | [] => some []
  | none :: _ => none
  | some x :: r => (allSome r).map (fun vs => x :: vs)

/-- `Series.pct_change()`: `out[t] = c[t]/c[t-1] - 1`, undefined at `t = 0`,
when an operand is NaN, or (float `inf`) when the divisor is zero. -/
def pctChange (c : Col) : Col :=
  (List.range c.length).map fun t =>
    if t = 0 then none
    else
      match colAt c (t - 1), colAt c t with
      | some b, some a => if b = 0 then none else some (a / b - 1)
      | _, _ => none

/-- `Series.rolling(k).agg(g)` with pandas' default `min_periods = k`: the
value at `t` is `g` of the trailing window of `k` rows ending at `t`,
defined only when the window is complete and NaN-free. -/
def rollingApply (g : List ℚ → ℚ) (k : ℕ) (c : Col) : Col :=
  (List.range c.length).map fun t =>
    if t + 1 < k then none
    else
      match allSome ((c.drop (t + 1 - k)).take k) with
      | some vs => some (g vs)
      | none => none

/-- Arithmetic mean of a list of rationals. -/
def listMean (vs : List ℚ) : ℚ := vs.sum / (vs.length : ℚ)

/-- `Series.rolling(k).mean()`. -/
def rollingMean (k : ℕ) (c : Col) : Col := rollingApply listMean k c

/-- `Series.rolling(k).min()`. -/
def rollingMin (k : ℕ) (c : Col) : Col :=
  rollingApply (fun vs => (vs.min?).getD 0) k c

/-- `Series.rolling(k).max()`. -/
def rollingMax (k : ℕ) (c : Col) : Col :=
  rollingApply (fun vs => (vs.max?).getD 0) k c

/-- `Series.diff(1)`: first difference, undefined at `t = 0`. -/
def diff1 (c : Col) : Col :=
  (List.range c.length).map fun t =>
    if t = 0 then none
    else
      match colAt c (t - 1), colAt c t with
      | some b, some a => some (a - b)
      | _, _ => none

/-- `diff.where(diff > 0, 0.0)` from ta's `RSIIndicator`: keeps positive
entries, everything else — including NaN, whose comparison is False — is
replaced by `0.0`, so the result has no NaN. -/
def whereGtZero (d : Col) : List ℚ :=
  d.map fun o => match o with
    | some x => if 0 < x then x else 0
    | none => 0

/-- `-diff.where(diff < 0, 0.0)` from ta's `RSIIndicator`. -/
def whereLtZeroNeg (d : Col) : List ℚ :=
  d.map fun o => match o with
    | some x => if x < 0 then -x else 0
    | none => 0

/-- Tail recursion of `ewm(alpha=a, adjust=False).mean()`:
`m[t] = (1-a)*m[t-1] + a*x[t]`. -/
def ewmGo (a : ℚ) (prev : ℚ) : List ℚ → List ℚ
  | [] => []
  | x :: r =>
    let m := (1 - a) * prev + a * x
    m :: ewmGo a m r

/-- The full `ewm(adjust=False)` recursive-mean sequence (`m[0] = x[0]`). -/
def ewmList (a : ℚ) : List ℚ → List ℚ
  | [] => []
  | x :: r => x :: ewmGo a x r

/-- `Series.ewm(alpha=a, min_periods=minp, adjust=False).mean()` on a
NaN-free series: the recursive mean, masked to NaN while fewer than
`minp` observations have been seen. -/
def ewmMean (a : ℚ) (minp : ℕ) (xs : List ℚ) : Col :=
  (List.range xs.length).map fun i =>
    if i + 1 < minp then none else (ewmList a xs).get? i

/-- ta's `RSIIndicator(close, window=14).rsi()`: Wilder-smoothed mean gain
and mean loss of `close.diff(1)` (`ewm(alpha=1/14, min_periods=14,
adjust=False)`), combined as `100 - 100/(1 + rs)`, with the `np.where`
guard returning `100` when the mean loss is zero. -/
def rsiCol (close : Col) : Col :=
  let d := diff1 close
  let emaup := ewmMean (1/14) 14 (whereGtZero d)
  let emadn := ewmMean (1/14) 14 (whereLtZeroNeg d)
  (List.range close.length).map fun i =>
    match colAt emadn i, colAt emaup i with
    | some dnv, some upv =>
        some (if dnv = 0 then 100 else 100 - 100 / (1 + upv / dnv))
    | _, _ => none

/-- ta's `StochasticOscillator(high, low, close, window=9).stoch()`:
`100 * (close - min(low, 9)) / (max(high, 9) - min(low, 9))`; a zero
trading range (float `0/0` or `x/0`) is modelled as undefined. -/
def stochKCol (high low close : Col) : Col :=
  let smin := rollingMin 9 low
  let smax := rollingMax 9 high
  (List.range close.length).map fun i =>
    match colAt close i, colAt smin i, colAt smax i with
    | some c, some mn, some mx =>
        if mx - mn = 0 then none else some (100 * (c - mn) / (mx - mn))
    | _, _, _ => none

/-- ta's `stoch_signal()` (`smooth_window = 6`): 6-period rolling mean of
the `%K` line. -/
def stochDCol (high low close : Col) : Col :=
  rollingMean 6 (stochKCol high low close)

/-- Statement `df["Return"] = df["Close"].pct_change()` of
`create_features` (build_features.py line 34). -/
def stepReturn (df : Frame) : Except String Frame :=
  (getColE df "Close").map (fun c => setCol df "Return" (pctChange c))

/-- Statement `df["MA5"] = df["Close"].rolling(5).mean()` (line 37). -/
def stepMA5 (df : Frame) : Except String Frame :=
  (getColE df "Close").map (fun c => setCol df "MA5" (rollingMean 5 c))

/-- Statement `df["MA10"] = df["Close"].rolling(10).mean()` (line 38). -/
def stepMA10 (df : Frame) : Except String Frame :=
  (getColE df "Close").map (fun c => setCol df "MA10" (rollingMean 10 c))

/-- Statement `df["MA30"] = df["Close"].rolling(30).mean()` (line 39). -/
def stepMA30 (df : Frame) : Except String Frame :=
  (getColE df "Close").map (fun c => setCol df "MA30" (rollingMean 30 c))

/-- Statement `df["RSI"] = ta.momentum.RSIIndicator(close=df["Close"],
window=14).rsi()` (line 42). -/
def stepRSI (df : Frame) : Except String Frame :=
  (getColE df "Close").map (fun c => setCol df "RSI" (rsiCol c))

/-- Lines 45-49: the `StochasticOscillator` captures `df["High"]`,
`df["Low"]`, `df["Close"]` (read in that order) at construction, then
`df["STOCH_K"] = stoch.stoch()` and `df["STOCH_D"] = stoch.stoch_signal()`
are assigned from the captured series. -/
def stepStoch (df : Frame) : Except String Frame :=
  match getColE df "High" with
  | .error e => .error e
  | .ok h =>
    match getColE df "Low" with
    | .error e => .error e
    | .ok l =>
      match getColE df "Close" with
      | .error e => .error e
      | .ok c =>
        .ok (setCol (setCol df "STOCH_K" (stochKCol h l c)) "STOCH_D"
              (stochDCol h l c))

/-- `create_features` (build_features.py lines 29-54): the body of the
function after `df = df.copy()`, as the sequence of column assignments;
a missing accessed column raises pandas' `KeyError`. -/
def create_features (df : Frame) : Except String Frame :=
  (stepReturn df).bind fun d1 =>
  (stepMA5 d1).bind fun d2 =>
  (stepMA10 d2).bind fun d3 =>
  (stepMA30 d3).bind fun d4 =>
  (stepRSI d4).bind fun d5 =>
  stepStoch d5

theorem pctChange_length (c : Col) : (pctChange c).length = c.length := by
  simp [pctChange]

theorem rollingApply_length (g : List ℚ → ℚ) (k : ℕ) (c : Col) :
    (rollingApply g k c).length = c.length := by
  simp [rollingApply]

theorem rollingMean_length (k : ℕ) (c : Col) :
    (rollingMean k c).length = c.length := rollingApply_length _ _ _

theorem ewmGo_length (a prev : ℚ) (xs : List ℚ) :
    (ewmGo a prev xs).length = xs.length := by
  induction xs generalizing prev with
  | nil => rfl
  | cons x r ih => simp [ewmGo, ih]

theorem ewmList_length (a : ℚ) (xs : List ℚ) :
    (ewmList a xs).length = xs.length := by
  cases xs with
  | nil => rfl
  | cons x r => simp [ewmList, ewmGo_length]

theorem ewmMean_length (a : ℚ) (minp : ℕ) (xs : List ℚ) :
    (ewmMean a minp xs).length = xs.length := by
  simp [ewmMean]

theorem rsiCol_length (c : Col) : (rsiCol c).length = c.length := by
  simp [rsiCol]

theorem stochKCol_length (h l c : Col) :
    (stochKCol h l c).length = c.length := by
  simp [stochKCol]

theorem stochDCol_length (h l c : Col) :
    (stochDCol h l c).length = c.length := by
  simp [stochDCol, rollingMean_length, stochKCol_length]

theorem getCol_cons (p : String × Col) (r : Frame) (nm : String) :
    getCol (p :: r) nm = if p.1 = nm then some p.2 else getCol r nm := rfl

theorem getCol_nil (nm : String) : getCol [] nm = none := rfl

theorem getCol_append_left {f : Frame} {nm : String} {c : Col} (g : Frame)
    (h : getCol f nm = some c) : getCol (f ++ g) nm = some c := by
  induction f with
  | nil => simp [getCol] at h
  | cons p r ih =>
    rw [List.cons_append, getCol_cons]
    rw [getCol_cons] at h
    by_cases hp : p.1 = nm
    · simpa [hp] using h
    · rw [if_neg hp] at h ⊢
      exact ih h

theorem getCol_append_none {f : Frame} {nm : String} (g : Frame)
    (h : getCol f nm = none) : getCol (f ++ g) nm = getCol g nm := by
  induction f with
  | nil => simp
  | cons p r ih =>
    rw [List.cons_append, getCol_cons]
    rw [getCol_cons] at h
    by_cases hp : p.1 = nm
    · simp [hp] at h
    · rw [if_neg hp] at h ⊢
      exact ih h

theorem setCol_of_fresh {f : Frame} {nm : String} (c : Col)
    (h : getCol f nm = none) : setCol f nm c = f ++ [(nm, c)] := by
  rw [setCol, h]

/-- The names of the seven derived feature columns, in assignment order. -/
def derivedNames : List String :=
  ["Return", "MA5", "MA10", "MA30", "RSI", "STOCH_K", "STOCH_D"]

/-- The seven derived columns `create_features` appends, as computed by the
code from the input's High/Low/Close columns. -/
def derivedCols (high low close : Col) : Frame :=
  [("Return", pctChange close), ("MA5", rollingMean 5 close),
   ("MA10", rollingMean 10 close), ("MA30", rollingMean 30 close),
   ("RSI", rsiCol close), ("STOCH_K", stochKCol high low close),
   ("STOCH_D", stochDCol high low close)]

theorem create_features_spec (f : Frame) (high low close : Col)
    (hH : getCol f "High" = some high) (hL : getCol f "Low" = some low)
    (hC : getCol f "Close" = some close)
    (hfresh : ∀ nm ∈ derivedNames, getCol f nm = none) :
    create_features f = .ok (f ++ derivedCols high low close) := by
  have hR : getCol f "Return" = none := hfresh _ (by simp [derivedNames])
  have h5 : getCol f "MA5" = none := hfresh _ (by simp [derivedNames])
  have h10 : getCol f "MA10" = none := hfresh _ (by simp [derivedNames])
  have h30 : getCol f "MA30" = none := hfresh _ (by simp [derivedNames])
  have hRS : getCol f "RSI" = none := hfresh _ (by simp [derivedNames])
  have hK : getCol f "STOCH_K" = none := hfresh _ (by simp [derivedNames])
  have hD : getCol f "STOCH_D" = none := hfresh _ (by simp [derivedNames])
  have e1 : stepReturn f = .ok (f ++ [("Return", pctChange close)]) := by
    simp only [stepReturn, getColE, hC, Except.map, setCol_of_fresh _ hR]
  set f1 : Frame := f ++ [("Return", pctChange close)] with hf1
  have hCf1 : getCol f1 "Close" = some close := getCol_append_left _ hC
  have h5f1 : getCol f1 "MA5" = none := by
    rw [hf1, getCol_append_none _ h5]; simp [getCol]
  have e2 : stepMA5 f1 = .ok (f1 ++ [("MA5", rollingMean 5 close)]) := by
    simp only [stepMA5, getColE, hCf1, Except.map, setCol_of_fresh _ h5f1]
  set f2 : Frame := f1 ++ [("MA5", rollingMean 5 close)] with hf2
  have hCf2 : getCol f2 "Close" = some close := getCol_append_left _ hCf1
  have h10f2 : getCol f2 "MA10" = none := by
    rw [hf2, getCol_append_none _ (by rw [hf1, getCol_append_none _ h10]; simp [getCol])]
    simp [getCol]
  have e3 : stepMA10 f2 = .ok (f2 ++ [("MA10", rollingMean 10 close)]) := by
    simp only [stepMA10, getColE, hCf2, Except.map, setCol_of_fresh _ h10f2]
  set f3 : Frame := f2 ++ [("MA10", rollingMean 10 close)] with hf3
  have hCf3 : getCol f3 "Close" = some close := getCol_append_left _ hCf2
  have h30f3 : getCol f3 "MA30" = none := by
    rw [hf3, getCol_append_none _ (by
      rw [hf2, getCol_append_none _ (by rw [hf1, getCol_append_none _ h30]; simp [getCol])]
      simp [getCol])]
    simp [getCol]
  have e4 : stepMA30 f3 = .ok (f3 ++ [("MA30", rollingMean 30 close)]) := by
    simp only [stepMA30, getColE, hCf3, Except.map, setCol_of_fresh _ h30f3]
  set f4 : Frame := f3 ++ [("MA30", rollingMean 30 close)] with hf4
  have hCf4 : getCol f4 "Close" = some close := getCol_append_left _ hCf3
  have hRSf4 : getCol f4 "RSI" = none := by
    rw [hf4, getCol_append_none _ (by
      rw [hf3, getCol_append_none _ (by
        rw [hf2, getCol_append_none _ (by rw [hf1, getCol_append_none _ hRS]; simp [getCol])]
        simp [getCol])]
      simp [getCol])]
    simp [getCol]
  have e5 : stepRSI f4 = .ok (f4 ++ [("RSI", rsiCol close)]) := by
    simp only [stepRSI, getColE, hCf4, Except.map, setCol_of_fresh _ hRSf4]
  set f5 : Frame := f4 ++ [("RSI", rsiCol close)] with hf5
  have hCf5 : getCol f5 "Close" = some close := getCol_append_left _ hCf4
  have hHf5 : getCol f5 "High" = some high := by
    rw [hf5, hf4, hf3, hf2, hf1]
    simp only [List.append_assoc]
    exact getCol_append_left _ hH
  have hLf5 : getCol f5 "Low" = some low := by
    rw [hf5, hf4, hf3, hf2, hf1]
    simp only [List.append_assoc]
    exact getCol_append_left _ hL
  have hKf5 : getCol f5 "STOCH_K" = none := by
    rw [hf5, hf4, hf3, hf2, hf1]
    simp only [List.append_assoc]
    rw [getCol_append_none _ hK]
    simp [getCol]
  have hDf6 : getCol (f5 ++ [("STOCH_K", stochKCol high low close)]) "STOCH_D" = none := by
    rw [hf5, hf4, hf3, hf2, hf1]
    simp only [List.append_assoc]
    rw [getCol_append_none _ hD]
    simp [getCol]
  have e6 : stepStoch f5 = .ok ((f5 ++ [("STOCH_K", stochKCol high low close)]) ++
      [("STOCH_D", stochDCol high low close)]) := by
    simp only [stepStoch, getColE, hHf5, hLf5, hCf5, setCol_of_fresh _ hKf5,
      setCol_of_fresh _ hDf6]
  rw [create_features, e1]
  show (stepMA5 f1).bind _ = _
  rw [e2]
  show (stepMA10 f2).bind _ = _
  rw [e3]
  show (stepMA30 f3).bind _ = _
  rw [e4]
  show (stepRSI f4).bind _ = _
  rw [e5]
  show stepStoch f5 = _
  rw [e6, hf5, hf4, hf3, hf2, hf1]
  simp [derivedCols, List.append_assoc]

theorem mem_of_getCol {f : Frame} {nm : String} {c : Col}
    (h : getCol f nm = some c) : (nm, c) ∈ f := by
  induction f with
  | nil => simp [getCol] at h
  | cons p r ih =>
    rw [getCol_cons] at h
    by_cases hp : p.1 = nm
    · rw [if_pos hp] at h
      have hc : c = p.2 := by
        injection h with h2
        exact h2.symm
      rw [hc, ← hp]
      exact List.mem_cons_self _ _
    · rw [if_neg hp] at h
      exact List.mem_cons_of_mem _ (ih h)

/-- Claim C1: for every well-formed OHLCV input table with `N ≥ 1` rows
(columns Open, High, Low, Close, Volume present, all of length `N`, no
derived-name collision), `create_features` succeeds and returns the input
frame with exactly the 7 columns Return, MA5, MA10, MA30, RSI, STOCH_K,
STOCH_D appended after it — so the output has exactly `N` rows, exactly 7
columns beyond the input's, and every original column, its values and the
row order are preserved exactly. -/
theorem c1_create_features_shape (f : Frame) (N : ℕ)
    (op hi lo cl vo : Col)
    (hO : getCol f "Open" = some op) (hH : getCol f "High" = some hi)
    (hL : getCol f "Low" = some lo) (hC : getCol f "Close" = some cl)
    (hV : getCol f "Volume" = some vo)
    (hfresh : ∀ nm ∈ derivedNames, getCol f nm = none)
    (hlen : ∀ p ∈ f, p.2.length = N) (hN : 1 ≤ N) :
    ∃ g, create_features f = .ok g ∧
      g.take f.length = f ∧
      g.length = f.length + 7 ∧
      (g.drop f.length).map Prod.fst = derivedNames ∧
      (∀ p ∈ g, p.2.length = N) ∧
      frameRows g = N := by
  have hclN : cl.length = N := hlen _ (mem_of_getCol hC)
  have hspec := create_features_spec f hi lo cl hH hL hC hfresh
  refine ⟨f ++ derivedCols hi lo cl, hspec, List.take_left _ _, ?_, ?_, ?_, ?_⟩
  · rw [List.length_append]
    rfl
  · rw [List.drop_left]
    rfl
  · intro p hp
    rcases List.mem_append.mp hp with h | h
    · exact hlen p h
    · simp only [derivedCols, List.mem_cons, List.not_mem_nil, or_false] at h
      rcases h with h|h|h|h|h|h|h <;>
        (subst h
         simp [pctChange_length, rollingMean_length, rsiCol_length,
           stochKCol_length, stochDCol_length, hclN])
  · cases f with
    | nil => simp [getCol] at hO
    | cons p r =>
      have := hlen p (List.mem_cons_self _ _)
      simpa [frameRows] using this

/-- Witness for C1 at a concrete 1-row OHLCV table. -/
def exC1 : Frame :=
  [("Open", [some 1]), ("High", [some 2]), ("Low", [some (1/2)]),
   ("Close", [some 1]), ("Volume", [some 100])]

theorem c1_create_features_shape_witness :
    ∃ g, create_features exC1 = .ok g ∧
      g.take exC1.length = exC1 ∧
      g.length = exC1.length + 7 ∧
      (g.drop exC1.length).map Prod.fst = derivedNames ∧
      (∀ p ∈ g, p.2.length = 1) ∧
      frameRows g = 1 :=
  c1_create_features_shape exC1 1 [some 1] [some 2] [some (1/2)] [some 1]
    [some 100] (by with_unfolding_all decide) (by with_unfolding_all decide)
    (by with_unfolding_all decide) (by with_unfolding_all decide)
    (by with_unfolding_all decide) (by with_unfolding_all decide)
    (by with_unfolding_all decide) (by decide)

theorem colAt_range_map (g : ℕ → Option ℚ) (n i : ℕ) (hi : i < n) :
    colAt ((List.range n).map g) i = g i := by
  rw [colAt, List.get?_map, List.get?_range hi]
  rfl

/-- Value of a column at row `i`, defaulting to `0` (used only to state
hypotheses about defined entries). -/
def colVal (c : Col) (i : ℕ) : ℚ := (colAt c i).getD 0

theorem colAt_eq_some_colVal {c : Col} {i : ℕ} (h : (colAt c i).isSome) :
    colAt c i = some (colVal c i) := by
  rw [colVal]
  cases hc : colAt c i with
  | none => rw [hc] at h; simp at h
  | some v => simp

theorem colAt_isSome_of_mem_all {c : Col} {i : ℕ} (hi : i < c.length)
    (hc : ∀ o ∈ c, o.isSome) : (colAt c i).isSome := by
  rw [colAt, List.get?_eq_get hi]
  exact hc _ (List.get_mem c i hi)

theorem allSome_isSome_iff (l : List (Option ℚ)) :
    (allSome l).isSome ↔ ∀ o ∈ l, o.isSome := by
  induction l with
  | nil => simp [allSome]
  | cons o r ih =>
    cases o with
    | none => simp [allSome]
    | some x => simp [allSome, ih]

theorem mem_of_allSome_get? {l : List (Option ℚ)} {vs : List ℚ} {j : ℕ} {x : ℚ}
    (h : allSome l = some vs) (hx : l.get? j = some (some x)) : x ∈ vs := by
  induction l generalizing vs j with
  | nil => simp at hx
  | cons o r ih =>
    cases o with
    | none => simp [allSome] at h
    | some y =>
      simp only [allSome] at h
      cases hr : allSome r with
      | none => rw [hr] at h; simp at h
      | some vs2 =>
        rw [hr] at h
        simp at h
        subst h
        cases j with
        | zero =>
          simp only [List.get?_cons_zero, Option.some.injEq] at hx
          rw [← hx]
          exact List.mem_cons_self _ _
        | succ j2 =>
          rw [List.get?_cons_succ] at hx
          exact List.mem_cons_of_mem _ (ih hr hx)

theorem window_get? (c : Col) (m k j : ℕ) (hj : j < k) :
    ((c.drop m).take k).get? j = c.get? (m + j) := by
  rw [List.get?_take hj, List.get?_drop]

theorem rollingApply_colAt (g : List ℚ → ℚ) (k : ℕ) (c : Col) (i : ℕ)
    (hi : i < c.length) :
    colAt (rollingApply g k c) i =
      if i + 1 < k then none
      else
        match allSome ((c.drop (i + 1 - k)).take k) with
        | some vs => some (g vs)
        | none => none := by
  rw [rollingApply, colAt_range_map _ _ _ hi]

theorem rollingApply_defined {c : Col} (g : List ℚ → ℚ) (k i : ℕ)
    (hi : i < c.length) (hc : ∀ o ∈ c, o.isSome) :
    (colAt (rollingApply g k c) i).isSome ↔ k ≤ i + 1 := by
  rw [rollingApply_colAt g k c i hi]
  by_cases hk : i + 1 < k
  · rw [if_pos hk]
    simp only [Option.isSome_none, Bool.false_eq_true, false_iff]
    omega
  · rw [if_neg hk]
    have hall : ∀ o ∈ (c.drop (i + 1 - k)).take k, o.isSome := by
      intro o ho
      exact hc o (List.drop_subset _ _ (List.take_subset _ _ ho))
    obtain ⟨vs, hvs⟩ := Option.isSome_iff_exists.mp ((allSome_isSome_iff _).mpr hall)
    rw [hvs]
    simp only [Option.isSome_some, true_iff]
    omega

theorem ewmMean_colAt (a : ℚ) (minp : ℕ) (xs : List ℚ) (i : ℕ)
    (hi : i < xs.length) :
    colAt (ewmMean a minp xs) i =
      if i + 1 < minp then none else (ewmList a xs).get? i := by
  rw [ewmMean, colAt_range_map _ _ _ hi]

theorem ewmMean_defined (a : ℚ) (minp : ℕ) (xs : List ℚ) (i : ℕ)
    (hi : i < xs.length) :
    (colAt (ewmMean a minp xs) i).isSome ↔ minp ≤ i + 1 := by
  rw [ewmMean_colAt a minp xs i hi]
  by_cases hm : i + 1 < minp
  · rw [if_pos hm]
    simp only [Option.isSome_none, Bool.false_eq_true, false_iff]
    omega
  · rw [if_neg hm]
    have hlt : i < (ewmList a xs).length := by rw [ewmList_length]; exact hi
    rw [List.get?_eq_get hlt]
    simp only [Option.isSome_some, true_iff]
    omega

theorem whereGtZero_length (d : Col) : (whereGtZero d).length = d.length := by
  simp [whereGtZero]

theorem whereLtZeroNeg_length (d : Col) :
    (whereLtZeroNeg d).length = d.length := by
  simp [whereLtZeroNeg]

theorem diff1_length (c : Col) : (diff1 c).length = c.length := by
  simp [diff1]

instance : Std.Antisymm ((· : ℚ) ≤ ·) :=
  ⟨fun {a b} h1 h2 => le_antisymm h1 h2⟩

theorem min?_le_of_mem_rat {l : List ℚ} {a b : ℚ} (h : l.min? = some a)
    (hb : b ∈ l) : a ≤ b := by
  rw [List.min?_eq_some_iff (fun x => le_refl x) (fun x y => min_choice x y)
    (fun x y z => le_min_iff)] at h
  exact h.2 b hb

theorem le_max?_of_mem_rat {l : List ℚ} {a b : ℚ} (h : l.max? = some a)
    (hb : b ∈ l) : b ≤ a := by
  rw [List.max?_eq_some_iff (fun x => le_refl x) (fun x y => max_choice x y)
    (fun x y z => max_le_iff)] at h
  exact h.2 b hb

theorem rsiCol_defined (c : Col) (i : ℕ) (hi : i < c.length) :
    (colAt (rsiCol c) i).isSome ↔ 14 ≤ i + 1 := by
  have hlup : (whereGtZero (diff1 c)).length = c.length := by
    rw [whereGtZero_length, diff1_length]
  have hldn : (whereLtZeroNeg (diff1 c)).length = c.length := by
    rw [whereLtZeroNeg_length, diff1_length]
  simp only [rsiCol]
  rw [colAt_range_map _ _ _ hi]
  by_cases hm : i + 1 < 14
  · have h1 : colAt (ewmMean (1/14) 14 (whereLtZeroNeg (diff1 c))) i = none := by
      rw [ewmMean_colAt _ _ _ _ (by rw [hldn]; exact hi), if_pos hm]
    have h2 : colAt (ewmMean (1/14) 14 (whereGtZero (diff1 c))) i = none := by
      rw [ewmMean_colAt _ _ _ _ (by rw [hlup]; exact hi), if_pos hm]
    rw [h1, h2]
    simp only [Option.isSome_none, Bool.false_eq_true, false_iff]
    omega
  · obtain ⟨dv, hdv⟩ := Option.isSome_iff_exists.mp
      ((ewmMean_defined (1/14) 14 _ i (by rw [hldn]; exact hi)).mpr (by omega))
    obtain ⟨uv, huv⟩ := Option.isSome_iff_exists.mp
      ((ewmMean_defined (1/14) 14 _ i (by rw [hlup]; exact hi)).mpr (by omega))
    rw [hdv, huv]
    simp only [Option.isSome_some, true_iff]
    omega

theorem stochKCol_colAt (high low close : Col) (i : ℕ) (hi : i < close.length) :
    colAt (stochKCol high low close) i =
      match colAt close i, colAt (rollingMin 9 low) i,
          colAt (rollingMax 9 high) i with
      | some cv, some mn, some mx =>
          if mx - mn = 0 then none else some (100 * (cv - mn) / (mx - mn))
      | _, _, _ => none := by
  simp only [stochKCol]
  rw [colAt_range_map _ _ _ hi]

theorem get?_eq_some_some_colVal {c : Col} {i : ℕ} (hi : i < c.length)
    (hc : ∀ o ∈ c, o.isSome) : c.get? i = some (some (colVal c i)) := by
  have h1 := colAt_eq_some_colVal (colAt_isSome_of_mem_all hi hc)
  rw [colAt] at h1
  cases hg : c.get? i with
  | none => rw [hg] at h1; simp at h1
  | some o =>
    rw [hg] at h1
    have h2 : o = some (colVal c i) := h1
    rw [h2]

theorem stochKCol_defined (high low close : Col) (N i : ℕ)
    (hhN : high.length = N) (hlN : low.length = N) (hcN : close.length = N)
    (hhs : ∀ o ∈ high, o.isSome) (hls : ∀ o ∈ low, o.isSome)
    (hcs : ∀ o ∈ close, o.isSome)
    (hlt : ∀ j, j < N → colVal low j < colVal high j)
    (hi : i < N) :
    (colAt (stochKCol high low close) i).isSome ↔ 9 ≤ i + 1 := by
  rw [stochKCol_colAt _ _ _ _ (by rw [hcN]; exact hi)]
  have hcv : colAt close i = some (colVal close i) :=
    colAt_eq_some_colVal (colAt_isSome_of_mem_all (by rw [hcN]; exact hi) hcs)
  rw [hcv]
  by_cases hk : i + 1 < 9
  · have h1 : colAt (rollingMin 9 low) i = none := by
      rw [rollingMin, rollingApply_colAt _ _ _ _ (by rw [hlN]; exact hi),
        if_pos hk]
    have h2 : colAt (rollingMax 9 high) i = none := by
      rw [rollingMax, rollingApply_colAt _ _ _ _ (by rw [hhN]; exact hi),
        if_pos hk]
    rw [h1, h2]
    simp only [Option.isSome_none, Bool.false_eq_true, false_iff]
    omega
  · have hmin : (colAt (rollingMin 9 low) i).isSome := by
      rw [rollingMin]
      exact (rollingApply_defined _ 9 i (by rw [hlN]; exact hi) hls).mpr
        (by omega)
    have hmax : (colAt (rollingMax 9 high) i).isSome := by
      rw [rollingMax]
      exact (rollingApply_defined _ 9 i (by rw [hhN]; exact hi) hhs).mpr
        (by omega)
    obtain ⟨mn, hmn⟩ := Option.isSome_iff_exists.mp hmin
    obtain ⟨mx, hmx⟩ := Option.isSome_iff_exists.mp hmax
    have hmn_le : mn ≤ colVal low i := by
      rw [rollingMin, rollingApply_colAt _ _ _ _ (by rw [hlN]; exact hi),
        if_neg hk] at hmn
      cases hvs : allSome ((low.drop (i + 1 - 9)).take 9) with
      | none => rw [hvs] at hmn; simp at hmn
      | some vs =>
        rw [hvs] at hmn
        simp only [Option.some.injEq] at hmn
        have hw8 : ((low.drop (i + 1 - 9)).take 9).get? 8 = low.get? i := by
          rw [window_get? low (i + 1 - 9) 9 8 (by omega)]
          congr 1
          omega
        have hmem : colVal low i ∈ vs := mem_of_allSome_get? hvs
          (by rw [hw8]
              exact get?_eq_some_some_colVal (by rw [hlN]; exact hi) hls)
        obtain ⟨m0, hm0⟩ : ∃ m0, vs.min? = some m0 := by
          cases vs with
          | nil => simp at hmem
          | cons v r => exact ⟨_, rfl⟩
        rw [hm0] at hmn
        simp only [Option.getD_some] at hmn
        rw [← hmn]
        exact min?_le_of_mem_rat hm0 hmem
    have hle_mx : colVal high i ≤ mx := by
      rw [rollingMax, rollingApply_colAt _ _ _ _ (by rw [hhN]; exact hi),
        if_neg hk] at hmx
      cases hvs : allSome ((high.drop (i + 1 - 9)).take 9) with
      | none => rw [hvs] at hmx; simp at hmx
      | some vs =>
        rw [hvs] at hmx
        simp only [Option.some.injEq] at hmx
        have hw8 : ((high.drop (i + 1 - 9)).take 9).get? 8 = high.get? i := by
          rw [window_get? high (i + 1 - 9) 9 8 (by omega)]
          congr 1
          omega
        have hmem : colVal high i ∈ vs := mem_of_allSome_get? hvs
          (by rw [hw8]
              exact get?_eq_some_some_colVal (by rw [hhN]; exact hi) hhs)
        obtain ⟨m0, hm0⟩ : ∃ m0, vs.max? = some m0 := by
          cases vs with
          | nil => simp at hmem
          | cons v r => exact ⟨_, rfl⟩
        rw [hm0] at hmx
        simp only [Option.getD_some] at hmx
        rw [← hmx]
        exact le_max?_of_mem_rat hm0 hmem
    have hne : ¬ (mx - mn = 0) := by
      intro h0
      have hj := hlt i hi
      have hlt2 : mn < mx := lt_of_le_of_lt hmn_le (lt_of_lt_of_le hj hle_mx)
      rw [sub_eq_zero] at h0
      exact absurd h0 (ne_of_gt hlt2)
    rw [hmn, hmx]
    simp only [if_neg hne, Option.isSome_some, true_iff]
    omega

theorem stochDCol_defined (high low close : Col) (N i : ℕ)
    (hhN : high.length = N) (hlN : low.length = N) (hcN : close.length = N)
    (hhs : ∀ o ∈ high, o.isSome) (hls : ∀ o ∈ low, o.isSome)
    (hcs : ∀ o ∈ close, o.isSome)
    (hlt : ∀ j, j < N → colVal low j < colVal high j)
    (hi : i < N) :
    (colAt (stochDCol high low close) i).isSome ↔ 14 ≤ i + 1 := by
  have hKlen : (stochKCol high low close).length = N := by
    rw [stochKCol_length, hcN]
  rw [stochDCol, rollingMean,
    rollingApply_colAt _ _ _ _ (by rw [hKlen]; exact hi)]
  by_cases h6 : i + 1 < 6
  · rw [if_pos h6]
    simp only [Option.isSome_none, Bool.false_eq_true, false_iff]
    omega
  · rw [if_neg h6]
    by_cases h14 : 14 ≤ i + 1
    · have hall : ∀ o ∈ ((stochKCol high low close).drop (i + 1 - 6)).take 6,
          o.isSome := by
        intro o ho
        obtain ⟨j, hj⟩ := List.mem_iff_get?.mp ho
        have hjlen : j <
            (((stochKCol high low close).drop (i + 1 - 6)).take 6).length := by
          by_contra hge
          push_neg at hge
          rw [List.get?_eq_none.mpr hge] at hj
          simp at hj
        have hjlt : j < 6 := lt_of_lt_of_le hjlen (by
          rw [List.length_take]
          exact min_le_left _ _)
        rw [window_get? _ _ _ _ hjlt] at hj
        have hidx : i + 1 - 6 + j < N := by
          have h2 := hjlen
          rw [List.length_take, List.length_drop, hKlen] at h2
          omega
        have hdef : (colAt (stochKCol high low close) (i + 1 - 6 + j)).isSome :=
          (stochKCol_defined high low close N _ hhN hlN hcN hhs hls hcs hlt
            hidx).mpr (by omega)
        rw [colAt, hj] at hdef
        exact hdef
      obtain ⟨vs, hvs⟩ := Option.isSome_iff_exists.mp
        ((allSome_isSome_iff _).mpr hall)
      rw [hvs]
      simp only [Option.isSome_some, true_iff]
      omega
    · have hidx : i + 1 - 6 < N := by omega
      have hK0 : ¬ (colAt (stochKCol high low close) (i + 1 - 6)).isSome := by
        rw [stochKCol_defined high low close N _ hhN hlN hcN hhs hls hcs hlt
          hidx]
        omega
      obtain ⟨o, ho⟩ : ∃ o, (stochKCol high low close).get? (i + 1 - 6) =
          some o := by
        rw [List.get?_eq_get (show i + 1 - 6 < (stochKCol high low close).length
          by rw [hKlen]; exact hidx)]
        exact ⟨_, rfl⟩
      have honone : o = none := by
        cases o with
        | none => rfl
        | some v =>
          exfalso
          apply hK0
          rw [colAt, ho]
          simp
      subst honone
      have hw0 : (((stochKCol high low close).drop (i + 1 - 6)).take 6).get? 0 =
          some (none : Option ℚ) := by
        rw [window_get? _ _ _ _ (show (0 : ℕ) < 6 by omega), Nat.add_zero, ho]
      have hmem : (none : Option ℚ) ∈
          ((stochKCol high low close).drop (i + 1 - 6)).take 6 :=
        List.mem_iff_get?.mpr ⟨0, hw0⟩
      have hno : allSome (((stochKCol high low close).drop (i + 1 - 6)).take 6)
          = none := by
        rw [← Option.not_isSome_iff_eq_none, allSome_isSome_iff]
        push_neg
        exact ⟨none, hmem, by simp⟩
      rw [hno]
      simp only [Option.isSome_none, Bool.false_eq_true, false_iff]
      omega

/-- Claim C2 (corrected): on well-formed non-degenerate OHLCV input, the
derived columns MA5, MA10, MA30, RSI, STOCH_K, STOCH_D of the feature table
are undefined for exactly the first 4, 9, 29, 13, 8 and 13 rows
respectively (`defined at i ↔ k ≤ i + 1` with k = 5, 10, 30, 14, 9, 14),
and defined for every row thereafter. -/
theorem c2_warmup_amended (f : Frame) (N : ℕ) (hic loc clc : Col)
    (hH : getCol f "High" = some hic) (hL : getCol f "Low" = some loc)
    (hC : getCol f "Close" = some clc)
    (hfresh : ∀ nm ∈ derivedNames, getCol f nm = none)
    (hhN : hic.length = N) (hlN : loc.length = N) (hcN : clc.length = N)
    (hhs : ∀ o ∈ hic, o.isSome) (hls : ∀ o ∈ loc, o.isSome)
    (hcs : ∀ o ∈ clc, o.isSome)
    (hlt : ∀ j, j < N → colVal loc j < colVal hic j) :
    ∃ g, create_features f = .ok g ∧
      (∀ i, i < N → ((colAt (getColD g "MA5") i).isSome ↔ 5 ≤ i + 1)) ∧
      (∀ i, i < N → ((colAt (getColD g "MA10") i).isSome ↔ 10 ≤ i + 1)) ∧
      (∀ i, i < N → ((colAt (getColD g "MA30") i).isSome ↔ 30 ≤ i + 1)) ∧
      (∀ i, i < N → ((colAt (getColD g "RSI") i).isSome ↔ 14 ≤ i + 1)) ∧
      (∀ i, i < N → ((colAt (getColD g "STOCH_K") i).isSome ↔ 9 ≤ i + 1)) ∧
      (∀ i, i < N → ((colAt (getColD g "STOCH_D") i).isSome ↔ 14 ≤ i + 1)) := by
  refine ⟨f ++ derivedCols hic loc clc,
    create_features_spec f hic loc clc hH hL hC hfresh, ?_, ?_, ?_, ?_, ?_, ?_⟩
  · have hg : getCol (f ++ derivedCols hic loc clc) "MA5" =
        some (rollingMean 5 clc) := by
      rw [getCol_append_none _ (hfresh _ (by simp [derivedNames]))]
      simp [derivedCols, getCol]
    intro i hiN
    rw [getColD, hg, Option.getD_some, rollingMean]
    exact rollingApply_defined _ 5 i (by rw [hcN]; exact hiN) hcs
  · have hg : getCol (f ++ derivedCols hic loc clc) "MA10" =
        some (rollingMean 10 clc) := by
      rw [getCol_append_none _ (hfresh _ (by simp [derivedNames]))]
      simp [derivedCols, getCol]
    intro i hiN
    rw [getColD, hg, Option.getD_some, rollingMean]
    exact rollingApply_defined _ 10 i (by rw [hcN]; exact hiN) hcs
  · have hg : getCol (f ++ derivedCols hic loc clc) "MA30" =
        some (rollingMean 30 clc) := by
      rw [getCol_append_none _ (hfresh _ (by simp [derivedNames]))]
      simp [derivedCols, getCol]
    intro i hiN
    rw [getColD, hg, Option.getD_some, rollingMean]
    exact rollingApply_defined _ 30 i (by rw [hcN]; exact hiN) hcs
  · have hg : getCol (f ++ derivedCols hic loc clc) "RSI" =
        some (rsiCol clc) := by
      rw [getCol_append_none _ (hfresh _ (by simp [derivedNames]))]
      simp [derivedCols, getCol]
    intro i hiN
    rw [getColD, hg, Option.getD_some]
    exact rsiCol_defined clc i (by rw [hcN]; exact hiN)
  · have hg : getCol (f ++ derivedCols hic loc clc) "STOCH_K" =
        some (stochKCol hic loc clc) := by
      rw [getCol_append_none _ (hfresh _ (by simp [derivedNames]))]
      simp [derivedCols, getCol]
    intro i hiN
    rw [getColD, hg, Option.getD_some]
    exact stochKCol_defined hic loc clc N i hhN hlN hcN hhs hls hcs hlt hiN
  · have hg : getCol (f ++ derivedCols hic loc clc) "STOCH_D" =
        some (stochDCol hic loc clc) := by
      rw [getCol_append_none _ (hfresh _ (by simp [derivedNames]))]
      simp [derivedCols, getCol]
    intro i hiN
    rw [getColD, hg, Option.getD_some]
    exact stochDCol_defined hic loc clc N i hhN hlN hcN hhs hls hcs hlt hiN

/-- High column of the concrete 16-row example table. -/
def exC2High : Col :=
  [some 2, some 3, some 4, some 5, some 6, some 7, some 8, some 9, some 10,
   some 11, some 12, some 13, some 14, some 15, some 16, some 17]

/-- Low column of the concrete 16-row example table. -/
def exC2Low : Col :=
  [some 0, some 1, some 2, some 3, some 4, some 5, some 6, some 7, some 8,
   some 9, some 10, some 11, some 12, some 13, some 14, some 15]

/-- Close column of the concrete 16-row example table. -/
def exC2Close : Col :=
  [some 1, some 2, some 3, some 4, some 5, some 6, some 7, some 8, some 9,
   some 10, some 11, some 12, some 13, some 14, some 15, some 16]

/-- A well-formed, non-degenerate 16-row OHLCV table (Low < High on every
row, no missing values). -/
def exC2 : Frame :=
  [("Open", exC2Close), ("High", exC2High), ("Low", exC2Low),
   ("Close", exC2Close), ("Volume", exC2Close)]

theorem c2_warmup_amended_witness :
    ∃ g, create_features exC2 = .ok g ∧
      (∀ i, i < 16 → ((colAt (getColD g "MA5") i).isSome ↔ 5 ≤ i + 1)) ∧
      (∀ i, i < 16 → ((colAt (getColD g "MA10") i).isSome ↔ 10 ≤ i + 1)) ∧
      (∀ i, i < 16 → ((colAt (getColD g "MA30") i).isSome ↔ 30 ≤ i + 1)) ∧
      (∀ i, i < 16 → ((colAt (getColD g "RSI") i).isSome ↔ 14 ≤ i + 1)) ∧
      (∀ i, i < 16 → ((colAt (getColD g "STOCH_K") i).isSome ↔ 9 ≤ i + 1)) ∧
      (∀ i, i < 16 → ((colAt (getColD g "STOCH_D") i).isSome ↔ 14 ≤ i + 1)) :=
  c2_warmup_amended exC2 16 exC2High exC2Low exC2Close
    (by with_unfolding_all decide) (by with_unfolding_all decide)
    (by with_unfolding_all decide) (by with_unfolding_all decide)
    (by decide) (by decide) (by decide)
    (by decide) (by decide) (by decide)
    (by with_unfolding_all decide)

/-- The feature table computed by `create_features`, defaulting to the empty
frame on error (for stating concrete evaluations). -/
def featFrame (f : Frame) : Frame := (create_features f).toOption.getD []

/-- Counterexample to C2 as stated: on the well-formed non-degenerate
16-row table `exC2`, MA5 is already defined at row index 4 (its 5th row,
which the claim says is still undefined), MA10 at index 9, RSI at index 13,
STOCH_K at index 8 and STOCH_D at index 13 — one row earlier than the
claimed warm-up lengths 5, 10, 14, 9, 14 in every case. -/
theorem c2_warmup_counterexample :
    (colAt (getColD (featFrame exC2) "MA5") 4).isSome = true ∧
    (colAt (getColD (featFrame exC2) "MA10") 9).isSome = true ∧
    (colAt (getColD (featFrame exC2) "RSI") 13).isSome = true ∧
    (colAt (getColD (featFrame exC2) "STOCH_K") 8).isSome = true ∧
    (colAt (getColD (featFrame exC2) "STOCH_D") 13).isSome = true := by
  with_unfolding_all decide

/-- The chronological split index `int(len(df) * (1 - test_size))` of
train.py line 75 — `int` truncates toward zero, which is the floor of the
nonnegative product (exact rationals stand in for floats). -/
def splitIdx (n : ℕ) (ts : ℚ) : ℕ := (Int.toNat ⌊(n : ℚ) * (1 - ts)⌋)

/-- train.py lines 76-79: `X.iloc[:split_idx]` / `X.iloc[split_idx:]` — the
chronological train/test split of the prepared rows. -/
def trainTestSplit {α : Type} (rows : List α) (ts : ℚ) : List α × List α :=
  (rows.take (splitIdx rows.length ts), rows.drop (splitIdx rows.length ts))

/-- Claim C3: `train_model` splits the post-dropna rows chronologically at
index `floor(N * (1 - test_size))`: the training set is exactly the rows
before the split index (in order) and the evaluation set exactly the rows
from the split index on, so for date-sorted rows no evaluation row's date
precedes any training row's date. -/
theorem c3_chronological_split (dates : List ℤ) (ts : ℚ)
    (hts0 : 0 < ts) (hts1 : ts < 1)
    (hsorted : dates.Pairwise (· ≤ ·)) :
    splitIdx dates.length ts = (Int.toNat ⌊(dates.length : ℚ) * (1 - ts)⌋) ∧
    (∀ i, i < splitIdx dates.length ts →
      (trainTestSplit dates ts).1.get? i = dates.get? i) ∧
    (∀ i, (trainTestSplit dates ts).2.get? i =
      dates.get? (splitIdx dates.length ts + i)) ∧
    (∀ d1 ∈ (trainTestSplit dates ts).1, ∀ d2 ∈ (trainTestSplit dates ts).2,
      d1 ≤ d2) := by
  refine ⟨rfl, ?_, ?_, ?_⟩
  · intro i hilt
    exact List.get?_take hilt
  · intro i
    exact List.get?_drop _ _ _
  · have h := hsorted
    rw [← List.take_append_drop (splitIdx dates.length ts) dates,
      List.pairwise_append] at h
    intro d1 h1 d2 h2
    exact h.2.2 d1 h1 d2 h2

theorem c3_chronological_split_witness :
    splitIdx (5 : ℕ) (1/5 : ℚ) = Int.toNat ⌊((5 : ℕ) : ℚ) * (1 - 1/5)⌋ ∧
    (∀ i, i < splitIdx ([1, 2, 3, 4, 5] : List ℤ).length (1/5) →
      (trainTestSplit ([1, 2, 3, 4, 5] : List ℤ) (1/5)).1.get? i =
        ([1, 2, 3, 4, 5] : List ℤ).get? i) ∧
    (∀ i, (trainTestSplit ([1, 2, 3, 4, 5] : List ℤ) (1/5)).2.get? i =
      ([1, 2, 3, 4, 5] : List ℤ).get?
        (splitIdx ([1, 2, 3, 4, 5] : List ℤ).length (1/5) + i)) ∧
    (∀ d1 ∈ (trainTestSplit ([1, 2, 3, 4, 5] : List ℤ) (1/5)).1,
      ∀ d2 ∈ (trainTestSplit ([1, 2, 3, 4, 5] : List ℤ) (1/5)).2, d1 ≤ d2) :=
  c3_chronological_split [1, 2, 3, 4, 5] (1/5)
    (by norm_num) (by norm_num) (by decide)

/-- `Series.shift(-1)`: `out[t] = c[t+1]`, undefined at the last row. -/
def shiftNeg1 (c : Col) : Col :=
  (List.range c.length).map fun t => colAt c (t + 1)

/-- True when row `i` of the frame has no undefined entry in any column
(`df.dropna()` keeps exactly these rows). -/
def rowAllSome (f : Frame) (i : ℕ) : Bool :=
  f.all (fun p => (colAt p.2 i).isSome)

/-- Indices of the rows kept by `df.dropna()`, in order. -/
def keptIdx (f : Frame) : List ℕ :=
  (List.range (frameRows f)).filter (fun i => rowAllSome f i)

/-- Restrict a column to the given row indices. -/
def selectRows (c : Col) (idxs : List ℕ) : Col :=
  idxs.map (fun i => colAt c i)

/-- `df.dropna()` (default `how="any"`): drop every row that has an
undefined entry in any column. -/
def dropna (f : Frame) : Frame :=
  f.map (fun p => (p.1, selectRows p.2 (keptIdx f)))

/-- train.py lines 64-65: `df["Target"] = df["Close"].shift(-1)` followed by
`df = df.dropna()`. -/
def trainPrep (df : Frame) : Except String Frame :=
  (getColE df "Close").map
    (fun c => dropna (setCol df "Target" (shiftNeg1 c)))

/-- The default feature list of train.py line 61. -/
def defaultFeaturesList : List String :=
  ["Close", "Return", "MA5", "MA10", "MA30", "RSI", "STOCH_D"]

theorem shiftNeg1_colAt (c : Col) (i : ℕ) (hi : i < c.length) :
    colAt (shiftNeg1 c) i = colAt c (i + 1) := by
  rw [shiftNeg1, colAt_range_map _ _ _ hi]

theorem getCol_mapF (f : Frame) (F : Col → Col) (nm : String) :
    getCol (f.map (fun p => (p.1, F p.2))) nm = (getCol f nm).map F := by
  induction f with
  | nil => rfl
  | cons p r ih =>
    simp only [List.map_cons, getCol_cons]
    by_cases hp : p.1 = nm
    · rw [if_pos hp, if_pos hp]
      rfl
    · rw [if_neg hp, if_neg hp, ih]

/-- Claim C4 (corrected): `train_model` builds the label as Close shifted
back one row (`label[t] = Close[t+1]`), then applies `df.dropna()`, which
always drops the final row (undefined label) and keeps exactly the rows in
which EVERY column of the loaded table — not only the selected feature
columns — and the label are defined; kept rows keep their values and
order. -/
theorem c4_label_and_dropna_amended (df : Frame) (cl : Col) (N : ℕ)
    (hC : getCol df "Close" = some cl) (hcN : cl.length = N)
    (hall : ∀ p ∈ df, p.2.length = N) (hfT : getCol df "Target" = none)
    (hN : 1 ≤ N) :
    ∃ g, trainPrep df = .ok g ∧
      g = dropna (df ++ [("Target", shiftNeg1 cl)]) ∧
      (∀ i, i < N → colAt (shiftNeg1 cl) i = colAt cl (i + 1)) ∧
      (∀ i, i ∈ keptIdx (df ++ [("Target", shiftNeg1 cl)]) ↔
        (i < N ∧ (∀ p ∈ df, (colAt p.2 i).isSome) ∧
          (colAt cl (i + 1)).isSome)) ∧
      (N - 1) ∉ keptIdx (df ++ [("Target", shiftNeg1 cl)]) ∧
      (∀ nm c, getCol (df ++ [("Target", shiftNeg1 cl)]) nm = some c →
        getCol g nm =
          some (selectRows c (keptIdx (df ++ [("Target", shiftNeg1 cl)])))) := by
  have e1 : trainPrep df = .ok (dropna (df ++ [("Target", shiftNeg1 cl)])) := by
    simp only [trainPrep, getColE, hC, Except.map, setCol_of_fresh _ hfT]
  have hrows : frameRows (df ++ [("Target", shiftNeg1 cl)]) = N := by
    cases df with
    | nil => simp [getCol] at hC
    | cons p r =>
      have hp := hall p (List.mem_cons_self _ _)
      simpa [frameRows] using hp
  have hshift : ∀ i, i < N → colAt (shiftNeg1 cl) i = colAt cl (i + 1) := by
    intro i hiN
    exact shiftNeg1_colAt cl i (by rw [hcN]; exact hiN)
  have hmem : ∀ i, i ∈ keptIdx (df ++ [("Target", shiftNeg1 cl)]) ↔
      (i < N ∧ (∀ p ∈ df, (colAt p.2 i).isSome) ∧
        (colAt cl (i + 1)).isSome) := by
    intro i
    rw [keptIdx, List.mem_filter, List.mem_range, hrows]
    constructor
    · rintro ⟨hiN, hrow⟩
      rw [rowAllSome, List.all_eq_true] at hrow
      refine ⟨hiN, fun p hp => hrow p (List.mem_append_left _ hp), ?_⟩
      have h2 := hrow _ (List.mem_append_right _ (List.mem_singleton_self _))
      rw [← hshift i hiN]
      exact h2
    · rintro ⟨hiN, hcols, hlab⟩
      refine ⟨hiN, ?_⟩
      rw [rowAllSome, List.all_eq_true]
      intro p hp
      rcases List.mem_append.mp hp with h | h
      · exact hcols p h
      · rw [List.mem_singleton] at h
        subst h
        rw [hshift i hiN]
        exact hlab
  refine ⟨dropna (df ++ [("Target", shiftNeg1 cl)]), e1, rfl, hshift, hmem,
    ?_, ?_⟩
  · rw [hmem (N - 1)]
    rintro ⟨hiN, hcols, hlab⟩
    have hnone : colAt cl (N - 1 + 1) = none := by
      rw [colAt, List.get?_eq_none.mpr (by rw [hcN]; omega)]
      rfl
    rw [hnone] at hlab
    simp at hlab
  · intro nm c hgc
    have h2 := getCol_mapF (df ++ [("Target", shiftNeg1 cl)])
      (fun c2 => selectRows c2 (keptIdx (df ++ [("Target", shiftNeg1 cl)]))) nm
    simp only [dropna]
    rw [h2, hgc]
    rfl

/-- A loaded feature table on which the claimed and actual dropping
behaviour differ: row 1 is undefined only in the non-selected column
STOCH_K. -/
def exC4 : Frame :=
  [("Close", [some 1, some 2, some 3]),
   ("Return", [some 1, some 1, some 1]),
   ("MA5", [some 1, some 1, some 1]),
   ("MA10", [some 1, some 1, some 1]),
   ("MA30", [some 1, some 1, some 1]),
   ("RSI", [some 1, some 1, some 1]),
   ("STOCH_D", [some 1, some 1, some 1]),
   ("STOCH_K", [some 1, none, some 1])]

/-- Counterexample to C4 as stated: in `exC4`, row 1 has every
default-selected feature column and its label (`Close[2]`) defined, so the
claim says it is kept; but `df.dropna()` drops on ALL columns and row 1 is
undefined in the non-selected column STOCH_K, so the code keeps only row 0
(row 2 is the final row, dropped with its undefined label). -/
theorem c4_label_and_dropna_counterexample :
    (∀ nm ∈ defaultFeaturesList, (colAt (getColD exC4 nm) 1).isSome = true) ∧
    (colAt (getColD exC4 "Close") 2).isSome = true ∧
    (trainPrep exC4).toOption.isSome = true ∧
    frameRows ((trainPrep exC4).toOption.getD []) = 1 ∧
    keptIdx (exC4 ++ [("Target", shiftNeg1 [some 1, some 2, some 3])]) =
      [0] := by
  with_unfolding_all decide

theorem c4_label_and_dropna_amended_witness :
    ∃ g, trainPrep exC4 = .ok g ∧
      g = dropna (exC4 ++ [("Target", shiftNeg1 [some 1, some 2, some 3])]) ∧
      (∀ i, i < 3 → colAt (shiftNeg1 [some 1, some 2, some 3]) i =
        colAt [some 1, some 2, some 3] (i + 1)) ∧
      (∀ i, i ∈ keptIdx (exC4 ++
          [("Target", shiftNeg1 [some 1, some 2, some 3])]) ↔
        (i < 3 ∧ (∀ p ∈ exC4, (colAt p.2 i).isSome) ∧
          (colAt [some 1, some 2, some 3] (i + 1)).isSome)) ∧
      (3 - 1) ∉ keptIdx (exC4 ++
        [("Target", shiftNeg1 [some 1, some 2, some 3])]) ∧
      (∀ nm c, getCol (exC4 ++
          [("Target", shiftNeg1 [some 1, some 2, some 3])]) nm = some c →
        getCol g nm = some (selectRows c (keptIdx (exC4 ++
          [("Target", shiftNeg1 [some 1, some 2, some 3])])))) :=
  c4_label_and_dropna_amended exC4 [some 1, some 2, some 3] 3
    (by with_unfolding_all decide) (by decide)
    (by decide) (by with_unfolding_all decide) (by decide)

theorem getCol_replaceCol_ne (f : Frame) (nm m : String) (c : Col)
    (hne : nm ≠ m) : getCol (replaceCol f nm c) m = getCol f m := by
  induction f with
  | nil => rfl
  | cons p r ih =>
    simp only [replaceCol, List.map_cons] at ih ⊢
    by_cases hp : p.1 = nm
    · rw [if_pos hp, getCol_cons, getCol_cons]
      rw [if_neg hne, if_neg (by rw [hp]; exact hne)]
      exact ih
    · rw [if_neg hp, getCol_cons, getCol_cons]
      by_cases hpm : p.1 = m
      · rw [if_pos hpm, if_pos hpm]
      · rw [if_neg hpm, if_neg hpm]
        exact ih

theorem getCol_setCol_ne (f : Frame) (nm m : String) (c : Col)
    (hne : nm ≠ m) : getCol (setCol f nm c) m = getCol f m := by
  rw [setCol]
  cases hg : getCol f nm with
  | some c2 => exact getCol_replaceCol_ne f nm m c hne
  | none =>
    cases hm : getCol f m with
    | some c3 => exact getCol_append_left _ hm
    | none =>
      rw [getCol_append_none _ hm]
      simp [getCol, hne]

theorem closeStep_ok (df : Frame) (cl : Col) (nm : String) (mk : Col → Col)
    (hcl : getCol df "Close" = some cl) :
    (getColE df "Close").map (fun c => setCol df nm (mk c)) =
      .ok (setCol df nm (mk cl)) := by
  simp only [getColE, hcl, Except.map]

/-- Claim C5 (corrected): `create_features` has no explicit column check;
it fails with pandas' `KeyError` naming the first missing column it
actually accesses — Close (for the Return assignment), then High, then Low
(for the stochastic oscillator) — and returns no partial table in those
cases.  When Close, High and Low are all present it raises no exception,
even if Open or Volume are missing: an input missing only Open and/or
Volume is NOT rejected. -/
theorem c5_missing_columns_amended (df : Frame) :
    (getCol df "Close" = none →
      create_features df = .error "KeyError: Close") ∧
    (∀ cl, getCol df "Close" = some cl → getCol df "High" = none →
      create_features df = .error "KeyError: High") ∧
    (∀ cl hc2, getCol df "Close" = some cl → getCol df "High" = some hc2 →
      getCol df "Low" = none →
      create_features df = .error "KeyError: Low") ∧
    (∀ cl hc2 lc, getCol df "Close" = some cl →
      getCol df "High" = some hc2 → getCol df "Low" = some lc →
      ∃ g, create_features df = .ok g) := by
  refine ⟨?_, ?_, ?_, ?_⟩
  · intro h
    simp only [create_features, stepReturn, getColE, h, Except.map,
      Except.bind]
    rfl
  · intro cl hcl hh
    have e1 : stepReturn df = .ok (setCol df "Return" (pctChange cl)) :=
      closeStep_ok df cl "Return" pctChange hcl
    set d1 := setCol df "Return" (pctChange cl) with hd1
    have hc1 : getCol d1 "Close" = some cl := by
      rw [hd1, getCol_setCol_ne _ _ _ _ (by decide)]; exact hcl
    have hh1 : getCol d1 "High" = none := by
      rw [hd1, getCol_setCol_ne _ _ _ _ (by decide)]; exact hh
    have e2 : stepMA5 d1 = .ok (setCol d1 "MA5" (rollingMean 5 cl)) :=
      closeStep_ok d1 cl "MA5" (rollingMean 5) hc1
    set d2 := setCol d1 "MA5" (rollingMean 5 cl) with hd2
    have hc2a : getCol d2 "Close" = some cl := by
      rw [hd2, getCol_setCol_ne _ _ _ _ (by decide)]; exact hc1
    have hh2 : getCol d2 "High" = none := by
      rw [hd2, getCol_setCol_ne _ _ _ _ (by decide)]; exact hh1
    have e3 : stepMA10 d2 = .ok (setCol d2 "MA10" (rollingMean 10 cl)) :=
      closeStep_ok d2 cl "MA10" (rollingMean 10) hc2a
    set d3 := setCol d2 "MA10" (rollingMean 10 cl) with hd3
    have hc3 : getCol d3 "Close" = some cl := by
      rw [hd3, getCol_setCol_ne _ _ _ _ (by decide)]; exact hc2a
    have hh3 : getCol d3 "High" = none := by
      rw [hd3, getCol_setCol_ne _ _ _ _ (by decide)]; exact hh2
    have e4 : stepMA30 d3 = .ok (setCol d3 "MA30" (rollingMean 30 cl)) :=
      closeStep_ok d3 cl "MA30" (rollingMean 30) hc3
    set d4 := setCol d3 "MA30" (rollingMean 30 cl) with hd4
    have hc4 : getCol d4 "Close" = some cl := by
      rw [hd4, getCol_setCol_ne _ _ _ _ (by decide)]; exact hc3
    have hh4 : getCol d4 "High" = none := by
      rw [hd4, getCol_setCol_ne _ _ _ _ (by decide)]; exact hh3
    have e5 : stepRSI d4 = .ok (setCol d4 "RSI" (rsiCol cl)) :=
      closeStep_ok d4 cl "RSI" rsiCol hc4
    set d5 := setCol d4 "RSI" (rsiCol cl) with hd5
    have hh5 : getCol d5 "High" = none := by
      rw [hd5, getCol_setCol_ne _ _ _ _ (by decide)]; exact hh4
    have e6 : stepStoch d5 = .error "KeyError: High" := by
      simp only [stepStoch, getColE, hh5]
      rfl
    rw [create_features, e1]
    show (stepMA5 d1).bind _ = _
    rw [e2]
    show (stepMA10 d2).bind _ = _
    rw [e3]
    show (stepMA30 d3).bind _ = _
    rw [e4]
    show (stepRSI d4).bind _ = _
    rw [e5]
    show stepStoch d5 = _
    exact e6
  · intro cl hc2 hcl hhi hlo
    have e1 : stepReturn df = .ok (setCol df "Return" (pctChange cl)) :=
      closeStep_ok df cl "Return" pctChange hcl
    set d1 := setCol df "Return" (pctChange cl) with hd1
    have hc1 : getCol d1 "Close" = some cl := by
      rw [hd1, getCol_setCol_ne _ _ _ _ (by decide)]; exact hcl
    have hh1 : getCol d1 "High" = some hc2 := by
      rw [hd1, getCol_setCol_ne _ _ _ _ (by decide)]; exact hhi
    have hl1 : getCol d1 "Low" = none := by
      rw [hd1, getCol_setCol_ne _ _ _ _ (by decide)]; exact hlo
    have e2 : stepMA5 d1 = .ok (setCol d1 "MA5" (rollingMean 5 cl)) :=
      closeStep_ok d1 cl "MA5" (rollingMean 5) hc1
    set d2 := setCol d1 "MA5" (rollingMean 5 cl) with hd2
    have hc2b : getCol d2 "Close" = some cl := by
      rw [hd2, getCol_setCol_ne _ _ _ _ (by decide)]; exact hc1
    have hh2 : getCol d2 "High" = some hc2 := by
      rw [hd2, getCol_setCol_ne _ _ _ _ (by decide)]; exact hh1
    have hl2 : getCol d2 "Low" = none := by
      rw [hd2, getCol_setCol_ne _ _ _ _ (by decide)]; exact hl1
    have e3 : stepMA10 d2 = .ok (setCol d2 "MA10" (rollingMean 10 cl)) :=
      closeStep_ok d2 cl "MA10" (rollingMean 10) hc2b
    set d3 := setCol d2 "MA10" (rollingMean 10 cl) with hd3
    have hc3 : getCol d3 "Close" = some cl := by
      rw [hd3, getCol_setCol_ne _ _ _ _ (by decide)]; exact hc2b
    have hh3 : getCol d3 "High" = some hc2 := by
      rw [hd3, getCol_setCol_ne _ _ _ _ (by decide)]; exact hh2
    have hl3 : getCol d3 "Low" = none := by
      rw [hd3, getCol_setCol_ne _ _ _ _ (by decide)]; exact hl2
    have e4 : stepMA30 d3 = .ok (setCol d3 "MA30" (rollingMean 30 cl)) :=
      closeStep_ok d3 cl "MA30" (rollingMean 30) hc3
    set d4 := setCol d3 "MA30" (rollingMean 30 cl) with hd4
    have hc4 : getCol d4 "Close" = some cl := by
      rw [hd4, getCol_setCol_ne _ _ _ _ (by decide)]; exact hc3
    have hh4 : getCol d4 "High" = some hc2 := by
      rw [hd4, getCol_setCol_ne _ _ _ _ (by decide)]; exact hh3
    have hl4 : getCol d4 "Low" = none := by
      rw [hd4, getCol_setCol_ne _ _ _ _ (by decide)]; exact hl3
    have e5 : stepRSI d4 = .ok (setCol d4 "RSI" (rsiCol cl)) :=
      closeStep_ok d4 cl "RSI" rsiCol hc4
    set d5 := setCol d4 "RSI" (rsiCol cl) with hd5
    have hh5 : getCol d5 "High" = some hc2 := by
      rw [hd5, getCol_setCol_ne _ _ _ _ (by decide)]; exact hh4
    have hl5 : getCol d5 "Low" = none := by
      rw [hd5, getCol_setCol_ne _ _ _ _ (by decide)]; exact hl4
    have e6 : stepStoch d5 = .error "KeyError: Low" := by
      simp only [stepStoch, getColE, hh5, hl5]
      rfl
    rw [create_features, e1]
    show (stepMA5 d1).bind _ = _
    rw [e2]
    show (stepMA10 d2).bind _ = _
    rw [e3]
    show (stepMA30 d3).bind _ = _
    rw [e4]
    show (stepRSI d4).bind _ = _
    rw [e5]
    show stepStoch d5 = _
    exact e6
  · intro cl hc2 lc hcl hhi hlo
    have e1 : stepReturn df = .ok (setCol df "Return" (pctChange cl)) :=
      closeStep_ok df cl "Return" pctChange hcl
    set d1 := setCol df "Return" (pctChange cl) with hd1
    have hc1 : getCol d1 "Close" = some cl := by
      rw [hd1, getCol_setCol_ne _ _ _ _ (by decide)]; exact hcl
    have hh1 : getCol d1 "High" = some hc2 := by
      rw [hd1, getCol_setCol_ne _ _ _ _ (by decide)]; exact hhi
    have hl1 : getCol d1 "Low" = some lc := by
      rw [hd1, getCol_setCol_ne _ _ _ _ (by decide)]; exact hlo
    have e2 : stepMA5 d1 = .ok (setCol d1 "MA5" (rollingMean 5 cl)) :=
      closeStep_ok d1 cl "MA5" (rollingMean 5) hc1
    set d2 := setCol d1 "MA5" (rollingMean 5 cl) with hd2
    have hc2b : getCol d2 "Close" = some cl := by
      rw [hd2, getCol_setCol_ne _ _ _ _ (by decide)]; exact hc1
    have hh2 : getCol d2 "High" = some hc2 := by
      rw [hd2, getCol_setCol_ne _ _ _ _ (by decide)]; exact hh1
    have hl2 : getCol d2 "Low" = some lc := by
      rw [hd2, getCol_setCol_ne _ _ _ _ (by decide)]; exact hl1
    have e3 : stepMA10 d2 = .ok (setCol d2 "MA10" (rollingMean 10 cl)) :=
      closeStep_ok d2 cl "MA10" (rollingMean 10) hc2b
    set d3 := setCol d2 "MA10" (rollingMean 10 cl) with hd3
    have hc3 : getCol d3 "Close" = some cl := by
      rw [hd3, getCol_setCol_ne _ _ _ _ (by decide)]; exact hc2b
    have hh3 : getCol d3 "High" = some hc2 := by
      rw [hd3, getCol_setCol_ne _ _ _ _ (by decide)]; exact hh2
    have hl3 : getCol d3 "Low" = some lc := by
      rw [hd3, getCol_setCol_ne _ _ _ _ (by decide)]; exact hl2
    have e4 : stepMA30 d3 = .ok (setCol d3 "MA30" (rollingMean 30 cl)) :=
      closeStep_ok d3 cl "MA30" (rollingMean 30) hc3
    set d4 := setCol d3 "MA30" (rollingMean 30 cl) with hd4
    have hc4 : getCol d4 "Close" = some cl := by
      rw [hd4, getCol_setCol_ne _ _ _ _ (by decide)]; exact hc3
    have hh4 : getCol d4 "High" = some hc2 := by
      rw [hd4, getCol_setCol_ne _ _ _ _ (by decide)]; exact hh3
    have hl4 : getCol d4 "Low" = some lc := by
      rw [hd4, getCol_setCol_ne _ _ _ _ (by decide)]; exact hl3
    have e5 : stepRSI d4 = .ok (setCol d4 "RSI" (rsiCol cl)) :=
      closeStep_ok d4 cl "RSI" rsiCol hc4
    set d5 := setCol d4 "RSI" (rsiCol cl) with hd5
    have hc5 : getCol d5 "Close" = some cl := by
      rw [hd5, getCol_setCol_ne _ _ _ _ (by decide)]; exact hc4
    have hh5 : getCol d5 "High" = some hc2 := by
      rw [hd5, getCol_setCol_ne _ _ _ _ (by decide)]; exact hh4
    have hl5 : getCol d5 "Low" = some lc := by
      rw [hd5, getCol_setCol_ne _ _ _ _ (by decide)]; exact hl4
    have e6 : stepStoch d5 = .ok (setCol (setCol d5 "STOCH_K"
        (stochKCol hc2 lc cl)) "STOCH_D" (stochDCol hc2 lc cl)) := by
      simp only [stepStoch, getColE, hh5, hl5, hc5]
    refine ⟨setCol (setCol d5 "STOCH_K" (stochKCol hc2 lc cl)) "STOCH_D"
      (stochDCol hc2 lc cl), ?_⟩
    rw [create_features, e1]
    show (stepMA5 d1).bind _ = _
    rw [e2]
    show (stepMA10 d2).bind _ = _
    rw [e3]
    show (stepMA30 d3).bind _ = _
    rw [e4]
    show (stepRSI d4).bind _ = _
    rw [e5]
    show stepStoch d5 = _
    exact e6

/-- An input table missing only the required column Open. -/
def exC5 : Frame :=
  [("High", [some 2]), ("Low", [some 1]), ("Close", [some 3]),
   ("Volume", [some 4])]

/-- Counterexample to C5 as stated: `exC5` is missing the required column
Open, yet `create_features` succeeds and returns a feature table instead of
failing with a missing-column error (Open and Volume are never accessed). -/
theorem c5_missing_columns_counterexample :
    getCol exC5 "Open" = none ∧
    (create_features exC5).toOption.isSome = true := by
  with_unfolding_all decide

theorem c5_missing_columns_amended_witness :
    create_features [("Open", [some 1])] = .error "KeyError: Close" ∧
    create_features [("Close", [some 1])] = .error "KeyError: High" ∧
    create_features [("Close", [some 1]), ("High", [some 2])] =
      .error "KeyError: Low" ∧
    (∃ g, create_features
      [("Close", [some 1]), ("High", [some 2]), ("Low", [some 1])] =
        .ok g) :=
  ⟨(c5_missing_columns_amended [("Open", [some 1])]).1 (by decide),
   (c5_missing_columns_amended [("Close", [some 1])]).2.1 [some 1]
     (by decide) (by decide),
   (c5_missing_columns_amended [("Close", [some 1]), ("High", [some 2])]).2.2.1
     [some 1] [some 2] (by decide) (by decide) (by decide),
   (c5_missing_columns_amended
     [("Close", [some 1]), ("High", [some 2]), ("Low", [some 1])]).2.2.2
     [some 1] [some 2] [some 1] (by decide) (by decide) (by decide)⟩

/-- `sklearn.metrics.mean_squared_error` over the held-out labels and
predictions (train.py line 100). -/
def mseQ (yt yp : List ℚ) : ℚ :=
  ((yt.zip yp).map (fun p => (p.1 - p.2) ^ 2)).sum / (yt.length : ℚ)

/-- `sklearn.metrics.mean_absolute_error` (line 101). -/
def maeQ (yt yp : List ℚ) : ℚ :=
  ((yt.zip yp).map (fun p => |p.1 - p.2|)).sum / (yt.length : ℚ)

/-- Residual sum of squares of `r2_score`. -/
def ssRes (yt yp : List ℚ) : ℚ :=
  ((yt.zip yp).map (fun p => (p.1 - p.2) ^ 2)).sum

/-- Total sum of squares (around the mean of `y_true`) of `r2_score`. -/
def ssTot (yt : List ℚ) : ℚ :=
  (yt.map (fun y => (y - yt.sum / (yt.length : ℚ)) ^ 2)).sum

/-- `sklearn.metrics.r2_score` (line 103): `1 - ss_res/ss_tot`, with
sklearn's convention for a constant `y_true` (denominator zero): score 1.0
when the residuals are also zero, else 0.0. -/
def r2Q (yt yp : List ℚ) : ℚ :=
  if ssTot yt = 0 then (if ssRes yt yp = 0 then 1 else 0)
  else 1 - ssRes yt yp / ssTot yt

/-- Claim C6: the four evaluation metrics computed by `train_model`
(train.py lines 100-103) satisfy MSE ≥ 0, MAE ≥ 0, RMSE = sqrt(MSE) — the
code sets `rmse = np.sqrt(mse)`, so RMSE is nonnegative and squares back to
MSE — and R² ≤ 1, for every nonempty evaluation set. -/
theorem c6_metrics (yt yp : List ℚ) (hne : yt ≠ []) :
    0 ≤ mseQ yt yp ∧ 0 ≤ maeQ yt yp ∧
    0 ≤ Real.sqrt ((mseQ yt yp : ℚ) : ℝ) ∧
    (Real.sqrt ((mseQ yt yp : ℚ) : ℝ)) ^ 2 = ((mseQ yt yp : ℚ) : ℝ) ∧
    r2Q yt yp ≤ 1 := by
  have hmse : 0 ≤ mseQ yt yp := by
    apply div_nonneg
    · apply List.sum_nonneg
      intro x hx
      obtain ⟨p, _, hp⟩ := List.mem_map.mp hx
      rw [← hp]
      exact sq_nonneg _
    · exact_mod_cast Nat.zero_le _
  refine ⟨hmse, ?_, Real.sqrt_nonneg _, Real.sq_sqrt (by exact_mod_cast hmse),
    ?_⟩
  · apply div_nonneg
    · apply List.sum_nonneg
      intro x hx
      obtain ⟨p, _, hp⟩ := List.mem_map.mp hx
      rw [← hp]
      exact abs_nonneg _
    · exact_mod_cast Nat.zero_le _
  · rw [r2Q]
    have hres : 0 ≤ ssRes yt yp := by
      apply List.sum_nonneg
      intro x hx
      obtain ⟨p, _, hp⟩ := List.mem_map.mp hx
      rw [← hp]
      exact sq_nonneg _
    by_cases htot : ssTot yt = 0
    · rw [if_pos htot]
      by_cases hres0 : ssRes yt yp = 0
      · rw [if_pos hres0]
      · rw [if_neg hres0]
        norm_num
    · rw [if_neg htot]
      have htotnn : 0 ≤ ssTot yt := by
        apply List.sum_nonneg
        intro x hx
        obtain ⟨p, _, hp⟩ := List.mem_map.mp hx
        rw [← hp]
        exact sq_nonneg _
      have hdiv : 0 ≤ ssRes yt yp / ssTot yt := div_nonneg hres htotnn
      linarith

theorem c6_metrics_witness :
    0 ≤ mseQ [1, 2] [2, 2] ∧ 0 ≤ maeQ [1, 2] [2, 2] ∧
    0 ≤ Real.sqrt ((mseQ [1, 2] [2, 2] : ℚ) : ℝ) ∧
    (Real.sqrt ((mseQ [1, 2] [2, 2] : ℚ) : ℝ)) ^ 2 =
      ((mseQ [1, 2] [2, 2] : ℚ) : ℝ) ∧
    r2Q [1, 2] [2, 2] ≤ 1 :=
  c6_metrics [1, 2] [2, 2] (by decide)

/-- A trained model artifact: the ordered feature names it was trained with
(`feature_names_in_`) and its opaque regression function (xgboost accepts
missing feature values, so entries are optional). -/
structure Model where
  feature_names : List String
  predict : List (Option ℚ) → ℚ

/-- `load_model` (predict.py lines 11-20): raises `FileNotFoundError` when
no model file exists at `model_path`.  The file system is modelled as a map
from paths to the model stored there, if any. -/
def load_model (fs : String → Option Model) (model_path : String) :
    Except String Model :=
  match fs model_path with
  | none =>
    .error ("FileNotFoundError: Model file not found: " ++ model_path)
  | some m => .ok m

/-- Column selection `df[features_list]`: the named columns in order,
with pandas' `KeyError` when one is missing. -/
def getColsE (df : Frame) : List String → Except String (List Col)
  | [] => .ok []
  | nm :: r =>
    match getColE df nm with
    | .error e => .error e
    | .ok c =>
      match getColsE df r with
      | .error e => .error e
      | .ok cs => .ok (c :: cs)

/-- `df[features_list].iloc[-1:].values` (predict.py line 41): the selected
columns' values at the last (most recent) row; pandas raises `KeyError` on
a missing column, and the prediction on an empty selection fails
downstream (modelled as an `IndexError`). -/
def lastRowVals (df : Frame) (names : List String) :
    Except String (List (Option ℚ)) :=
  match getColsE df names with
  | .error e => .error e
  | .ok cols =>
    if frameRows df = 0 then .error "IndexError: empty feature table"
    else .ok (cols.map (fun c => colAt c (frameRows df - 1)))

/-- `predict_next_day` (predict.py lines 23-47): load the model (not-found
error when absent), default the feature list to the model's recorded
`feature_names_in_`, select the last row of the feature table and apply
the model to it. -/
def predict_next_day (fs : String → Option Model) (df : Frame)
    (model_path : String) (features_list : Option (List String)) :
    Except String ℚ :=
  match load_model fs model_path with
  | .error e => .error e
  | .ok model =>
    match lastRowVals df (features_list.getD model.feature_names) with
    | .error e => .error e
    | .ok vals => .ok (model.predict vals)

theorem getColsE_ok (df : Frame) (names : List String)
    (h : ∀ nm ∈ names, (getCol df nm).isSome) :
    getColsE df names = .ok (names.map (getColD df)) := by
  induction names with
  | nil => rfl
  | cons nm r ih =>
    obtain ⟨c, hc⟩ :=
      Option.isSome_iff_exists.mp (h nm (List.mem_cons_self _ _))
    have ih2 := ih (fun nm2 h2 => h nm2 (List.mem_cons_of_mem _ h2))
    rw [getColsE, getColE, hc, ih2, List.map_cons]
    have hd : getColD df nm = c := by rw [getColD, hc]; rfl
    rw [hd]

/-- Claim C7: when the model file at `model_path` is absent, `load_model`
(and hence `predict_next_day`) fails with a `FileNotFoundError` naming the
path and produces no prediction; when the model file exists and the
feature table is valid (nonempty and containing every selected feature
column), `predict_next_day` returns the single scalar obtained by applying
the model to the selected values of the last (most recent) row. -/
theorem c7_predictor (fs : String → Option Model) (df : Frame)
    (model_path : String) (features_list : Option (List String)) :
    (fs model_path = none →
      load_model fs model_path =
        .error ("FileNotFoundError: Model file not found: " ++ model_path) ∧
      predict_next_day fs df model_path features_list =
        .error ("FileNotFoundError: Model file not found: " ++ model_path)) ∧
    (∀ m, fs model_path = some m →
      0 < frameRows df →
      (∀ nm ∈ features_list.getD m.feature_names, (getCol df nm).isSome) →
      predict_next_day fs df model_path features_list =
        .ok (m.predict ((features_list.getD m.feature_names).map
          (fun nm => colAt (getColD df nm) (frameRows df - 1))))) := by
  constructor
  · intro habs
    have hlm : load_model fs model_path =
        .error ("FileNotFoundError: Model file not found: " ++ model_path) := by
      rw [load_model, habs]
    refine ⟨hlm, ?_⟩
    rw [predict_next_day, hlm]
  · intro m hm hrows hnames
    have hlm : load_model fs model_path = .ok m := by
      rw [load_model, hm]
    rw [predict_next_day, hlm]
    have hlast : lastRowVals df (features_list.getD m.feature_names) =
        .ok (((features_list.getD m.feature_names).map (getColD df)).map
          (fun c => colAt c (frameRows df - 1))) := by
      rw [lastRowVals, getColsE_ok df _ hnames]
      simp only [if_neg (show ¬ frameRows df = 0 by omega)]
    show (match lastRowVals df (features_list.getD m.feature_names) with
      | Except.error e => Except.error e
      | Except.ok vals => Except.ok (m.predict vals)) =
      Except.ok (m.predict ((features_list.getD m.feature_names).map
        (fun nm => colAt (getColD df nm) (frameRows df - 1))))
    rw [hlast, List.map_map]
    rfl

/-- A concrete model: one feature, prediction = that feature's value. -/
def exModel : Model := ⟨["Close"], fun vals => (vals.headD none).getD 0⟩

/-- A file system holding `exModel` at the default model path. -/
def exFS : String → Option Model :=
  fun p => if p = "models/baseline_model.pkl" then some exModel else none

/-- A two-row feature table for the predictor witness. -/
def exC7df : Frame := [("Close", [some 3, some 7])]

theorem c7_predictor_witness :
    (load_model (fun _ => none) "models/baseline_model.pkl" =
      .error ("FileNotFoundError: Model file not found: " ++
        "models/baseline_model.pkl") ∧
     predict_next_day (fun _ => none) exC7df "models/baseline_model.pkl"
       none = .error ("FileNotFoundError: Model file not found: " ++
        "models/baseline_model.pkl")) ∧
    predict_next_day exFS exC7df "models/baseline_model.pkl" none =
      .ok (exModel.predict (exModel.feature_names.map
        (fun nm => colAt (getColD exC7df nm) (frameRows exC7df - 1)))) :=
  ⟨(c7_predictor (fun _ => none) exC7df "models/baseline_model.pkl" none).1
     rfl,
   (c7_predictor exFS exC7df "models/baseline_model.pkl" none).2 exModel
     rfl (by decide) (by decide)⟩

/-- A `POST /predict/custom` request body (app.py lines 28-30). -/
structure PredictionRequest where
  features : List ℚ
  feature_names : Option (List String)

/-- The outcome of a request handler: a 200 response carrying the
prediction, or an `HTTPException` with a status code and detail message. -/
inductive ApiResult where
  | ok (prediction : ℚ) (message : String)
  | httpError (status : ℕ) (detail : String)

/-- The 400 detail message of app.py line 140. -/
def lenMismatchMsg (expected got : ℕ) : String :=
  "Expected " ++ toString expected ++ " features, got " ++ toString got

/-- The model the handler works with: the in-memory cache when loaded,
otherwise the model file, which app.py lines 122-128 load on demand. -/
def availableModel (cached fileModel : Option Model) : Option Model :=
  match cached with
  | some m => some m
  | none => fileModel

/-- The `/predict/custom` handler `predict_custom` (app.py lines 113-158):
404 when no model is cached or stored; otherwise the feature-name list
defaults to the model's recorded names, a length mismatch between
`features` and the feature names yields HTTP 400 before any prediction,
and otherwise the model is applied to the supplied vector. -/
def predict_custom (cached fileModel : Option Model)
    (req : PredictionRequest) : ApiResult :=
  match availableModel cached fileModel with
  | none =>
    .httpError 404 "Model file not found at models/baseline_model.pkl"
  | some m =>
    if req.features.length ≠ (req.feature_names.getD m.feature_names).length
    then
      .httpError 400 (lenMismatchMsg
        (req.feature_names.getD m.feature_names).length req.features.length)
    else
      .ok (m.predict (req.features.map some)) "Custom prediction successful"

/-- Claim C8: for every `/predict/custom` request, with a model available,
whose `features` length differs from the supplied `feature_names` length
(or from the model's recorded feature-name count when omitted), the
response is HTTP 400 with the code's mismatch detail — in particular never
HTTP 500, and no prediction is computed. -/
theorem c8_predict_custom_mismatch (cached fileModel : Option Model)
    (req : PredictionRequest) (m : Model)
    (havail : availableModel cached fileModel = some m)
    (hmis : req.features.length ≠
      (req.feature_names.getD m.feature_names).length) :
    predict_custom cached fileModel req =
      .httpError 400 (lenMismatchMsg
        (req.feature_names.getD m.feature_names).length
        req.features.length) ∧
    (∀ d, predict_custom cached fileModel req ≠ .httpError 500 d) ∧
    (∀ p msg, predict_custom cached fileModel req ≠ .ok p msg) := by
  have h1 : predict_custom cached fileModel req =
      .httpError 400 (lenMismatchMsg
        (req.feature_names.getD m.feature_names).length
        req.features.length) := by
    rw [predict_custom, havail]
    simp only [if_pos hmis]
  refine ⟨h1, ?_, ?_⟩
  · intro d h2
    rw [h1] at h2
    injection h2 with hs hd
    exact absurd hs (by decide)
  · intro p msg h2
    rw [h1] at h2
    exact ApiResult.noConfusion h2

/-- A request carrying 1 feature value but 2 feature names. -/
def exReq : PredictionRequest := ⟨[1], some ["Close", "Return"]⟩

theorem c8_predict_custom_mismatch_witness :
    predict_custom (some exModel) none exReq =
      .httpError 400 (lenMismatchMsg 2 1) ∧
    (∀ d, predict_custom (some exModel) none exReq ≠ .httpError 500 d) ∧
    (∀ p msg, predict_custom (some exModel) none exReq ≠ .ok p msg) :=
  c8_predict_custom_mismatch (some exModel) none exReq exModel rfl
    (by decide)

/-- Observable outcome of one `build_features` run: the returned value (or
exception), the table written to the local output path, and whether the
best-effort S3 upload failed (its exception is caught and only logged). -/
structure BuildOut where
  result : Except String Frame
  savedLocal : Option Frame
  uploadFailed : Bool

/-- `build_features` (build_features.py lines 57-108) with its I/O made
explicit: `useS3` is the USE_S3 flag, `s3dl` the S3 download outcome
(`none` = the download raised), `s3upOk` whether the upload succeeds, and
`localIn` the table at the local input path (`none` = missing file).  The
code tries S3 first, falls back to the local file on any download failure,
builds features (optionally dropping incomplete rows), always saves
locally, then attempts the upload and continues even if it fails. -/
def build_features_run (useS3 : Bool) (s3dl : Option Frame) (s3upOk : Bool)
    (localIn : Option Frame) (dropFlag : Bool) : BuildOut :=
  match
    (match (if useS3 then s3dl else none) with
     | some t => Except.ok t
     | none =>
       match localIn with
       | some t => Except.ok t
       | none => Except.error "FileNotFoundError: input file not found") with
  | .error e => ⟨.error e, none, false⟩
  | .ok df =>
    match create_features df with
    | .error e => ⟨.error e, none, false⟩
    | .ok f0 =>
      ⟨.ok (if dropFlag then dropna f0 else f0),
       some (if dropFlag then dropna f0 else f0),
       useS3 && !s3upOk⟩

/-- Observable outcome of one `train_model` run: the returned trained
model (standing for the result dict), the model written to the local model
path, and whether the best-effort S3 upload failed. -/
structure TrainOut where
  result : Except String Model
  savedLocal : Option Model
  uploadFailed : Bool

/-- `train_model` (train.py lines 33-145) with its I/O made explicit and
the xgboost fit abstracted as an opaque function `fit` on the prepared
frame: S3 download with local fallback, label construction and dropna
(`trainPrep`), fit, local save, then the best-effort upload. -/
def train_model_run (useS3 : Bool) (s3dl : Option Frame) (s3upOk : Bool)
    (localIn : Option Frame) (fit : Frame → Model) : TrainOut :=
  match
    (match (if useS3 then s3dl else none) with
     | some t => Except.ok t
     | none =>
       match localIn with
       | some t => Except.ok t
       | none =>
         Except.error "FileNotFoundError: features file not found") with
  | .error e => ⟨.error e, none, false⟩
  | .ok df =>
    match trainPrep df with
    | .error e => ⟨.error e, none, false⟩
    | .ok g => ⟨.ok (fit g), some (fit g), useS3 && !s3upOk⟩

/-- Claim C9: with S3 mirroring enabled, a failure of the upload after the
successful local save never changes the stage's returned result or the
locally saved artifact (for `build_features` and `train_model` alike), and
a failure of the S3 download makes the stage fall back to the local path:
its result and local save are exactly those of the local-only run. -/
theorem c9_s3_best_effort :
    (∀ dl li fl up1 up2,
      (build_features_run true dl up1 li fl).result =
        (build_features_run true dl up2 li fl).result ∧
      (build_features_run true dl up1 li fl).savedLocal =
        (build_features_run true dl up2 li fl).savedLocal) ∧
    (∀ t up fl,
      (build_features_run true none up (some t) fl).result =
        (build_features_run false none up (some t) fl).result ∧
      (build_features_run true none up (some t) fl).savedLocal =
        (build_features_run false none up (some t) fl).savedLocal) ∧
    (∀ dl li fit up1 up2,
      (train_model_run true dl up1 li fit).result =
        (train_model_run true dl up2 li fit).result ∧
      (train_model_run true dl up1 li fit).savedLocal =
        (train_model_run true dl up2 li fit).savedLocal) ∧
    (∀ t up fit,
      (train_model_run true none up (some t) fit).result =
        (train_model_run false none up (some t) fit).result ∧
      (train_model_run true none up (some t) fit).savedLocal =
        (train_model_run false none up (some t) fit).savedLocal) := by
  refine ⟨?_, ?_, ?_, ?_⟩
  · intro dl li fl up1 up2
    cases dl with
    | none =>
      cases li with
      | none => exact ⟨rfl, rfl⟩
      | some t =>
        cases hcf : create_features t with
        | error e => simp [build_features_run, hcf]
        | ok f0 => simp [build_features_run, hcf]
    | some t =>
      cases hcf : create_features t with
      | error e => simp [build_features_run, hcf]
      | ok f0 => simp [build_features_run, hcf]
  · intro t up fl
    cases hcf : create_features t with
    | error e => simp [build_features_run, hcf]
    | ok f0 => simp [build_features_run, hcf]
  · intro dl li fit up1 up2
    cases dl with
    | none =>
      cases li with
      | none => exact ⟨rfl, rfl⟩
      | some t =>
        cases hcf : trainPrep t with
        | error e => simp [train_model_run, hcf]
        | ok g => simp [train_model_run, hcf]
    | some t =>
      cases hcf : trainPrep t with
      | error e => simp [train_model_run, hcf]
      | ok g => simp [train_model_run, hcf]
  · intro t up fit
    cases hcf : trainPrep t with
    | error e => simp [train_model_run, hcf]
    | ok g => simp [train_model_run, hcf]

/-- A heap of Python DataFrame objects; a Python variable holds an address
(list index).  `df.copy()` allocates a fresh object; a column assignment
mutates the object at its address in place. -/
abbrev Heap : Type := List Frame

/-- One column-assignment statement executed on the object at address `b`:
read the frame there, compute its successor (possibly raising a pandas
error), and store it back at the same address. -/
def heapAssign (h : Heap) (b : ℕ) (g : Frame → Except String Frame) :
    Except String Heap :=
  match h.get? b with
  | none => .error "invalid reference"
  | some f =>
    match g f with
    | .error e => .error e
    | .ok fn => .ok (h.set b fn)

/-- `create_features` executed on a heap, with the caller's argument at
address `a`: line 31's `df = df.copy()` allocates the copy at the fresh
address `h.length`, and the seven column assignments (six statements, the
stochastic one assigning STOCH_K and STOCH_D) mutate only that copy.
Returns the heap and the address of the returned frame. -/
def create_features_heap (h : Heap) (a : ℕ) : Except String (Heap × ℕ) :=
  match h.get? a with
  | none => .error "invalid reference"
  | some f =>
    match heapAssign (h ++ [f]) h.length stepReturn with
    | .error e => .error e
    | .ok h1 =>
      match heapAssign h1 h.length stepMA5 with
      | .error e => .error e
      | .ok h2 =>
        match heapAssign h2 h.length stepMA10 with
        | .error e => .error e
        | .ok h3 =>
          match heapAssign h3 h.length stepMA30 with
          | .error e => .error e
          | .ok h4 =>
            match heapAssign h4 h.length stepRSI with
            | .error e => .error e
            | .ok h5 =>
              match heapAssign h5 h.length stepStoch with
              | .error e => .error e
              | .ok h6 => .ok (h6, h.length)

theorem heapAssign_error {h : Heap} {b : ℕ} {fb : Frame} {e : String}
    (hb : h.get? b = some fb) (g : Frame → Except String Frame)
    (hg : g fb = .error e) : heapAssign h b g = .error e := by
  simp only [heapAssign, hb, hg]

theorem heapAssign_ok {h : Heap} {b : ℕ} {fb fn : Frame}
    (hb : h.get? b = some fb) (g : Frame → Except String Frame)
    (hg : g fb = .ok fn) : heapAssign h b g = .ok (h.set b fn) := by
  simp only [heapAssign, hb, hg]

theorem get?_set_preserved {h : Heap} {a b : ℕ} {f fn : Frame}
    (ha : h.get? a = some f) (hab : b ≠ a) : (h.set b fn).get? a = some f := by
  rw [List.get?_set_ne fn h hab]
  exact ha

theorem get?_set_self {h : Heap} {b : ℕ} {fb fn : Frame}
    (hb : h.get? b = some fb) : (h.set b fn).get? b = some fn := by
  apply List.get?_set_eq_of_lt
  by_contra hge
  push_neg at hge
  rw [List.get?_eq_none.mpr hge] at hb
  simp at hb

/-- Claim C10: `create_features` never mutates its argument.  Running the
(heap-level) body on a caller-owned frame at address `a` leaves the object
at `a` exactly as it was; the result is a fresh object at a different
address holding precisely the functional result `create_features f`, and
when the body raises, the caller's object is untouched as well (the error
agrees with the functional semantics). -/
theorem c10_no_mutation (h : Heap) (a : ℕ) (f : Frame)
    (ha : h.get? a = some f) :
    (match create_features_heap h a with
     | .ok pr =>
        pr.1.get? a = some f ∧ pr.2 ≠ a ∧
        ∃ g2, create_features f = .ok g2 ∧ pr.1.get? pr.2 = some g2
     | .error e => create_features f = .error e ∨ e = "invalid reference") := by
  have halt : a < h.length := by
    by_contra hge
    push_neg at hge
    rw [List.get?_eq_none.mpr hge] at ha
    simp at ha
  have hab : h.length ≠ a := by omega
  have ha0 : (h ++ [f]).get? a = some f := by
    rw [List.get?_append halt]
    exact ha
  have hb0 : (h ++ [f]).get? h.length = some f := List.get?_concat_length h f
  cases hs1 : stepReturn f with
  | error e =>
    have eh : create_features_heap h a = .error e := by
      simp only [create_features_heap, ha,
        heapAssign_error hb0 stepReturn hs1]
    rw [eh]
    left
    rw [create_features, hs1]
    rfl
  | ok f1 =>
    have e1 : heapAssign (h ++ [f]) h.length stepReturn =
        .ok ((h ++ [f]).set h.length f1) := heapAssign_ok hb0 _ hs1
    have ha1 : ((h ++ [f]).set h.length f1).get? a = some f :=
      get?_set_preserved ha0 hab
    have hb1 : ((h ++ [f]).set h.length f1).get? h.length = some f1 :=
      get?_set_self hb0
    set k1 : Heap := (h ++ [f]).set h.length f1 with hk1
    cases hs2 : stepMA5 f1 with
    | error e =>
      have eh : create_features_heap h a = .error e := by
        simp only [create_features_heap, ha, e1,
          heapAssign_error hb1 stepMA5 hs2]
      rw [eh]
      left
      rw [create_features, hs1]
      show (stepMA5 f1).bind _ = _
      rw [hs2]
      rfl
    | ok f2 =>
      have e2 : heapAssign k1 h.length stepMA5 = .ok (k1.set h.length f2) :=
        heapAssign_ok hb1 _ hs2
      have ha2 : (k1.set h.length f2).get? a = some f :=
        get?_set_preserved ha1 hab
      have hb2 : (k1.set h.length f2).get? h.length = some f2 :=
        get?_set_self hb1
      set k2 : Heap := k1.set h.length f2 with hk2
      cases hs3 : stepMA10 f2 with
      | error e =>
        have eh : create_features_heap h a = .error e := by
          simp only [create_features_heap, ha, e1, e2,
            heapAssign_error hb2 stepMA10 hs3]
        rw [eh]
        left
        rw [create_features, hs1]
        show (stepMA5 f1).bind _ = _
        rw [hs2]
        show (stepMA10 f2).bind _ = _
        rw [hs3]
        rfl
      | ok f3 =>
        have e3 : heapAssign k2 h.length stepMA10 =
            .ok (k2.set h.length f3) := heapAssign_ok hb2 _ hs3
        have ha3 : (k2.set h.length f3).get? a = some f :=
          get?_set_preserved ha2 hab
        have hb3 : (k2.set h.length f3).get? h.length = some f3 :=
          get?_set_self hb2
        set k3 : Heap := k2.set h.length f3 with hk3
        cases hs4 : stepMA30 f3 with
        | error e =>
          have eh : create_features_heap h a = .error e := by
            simp only [create_features_heap, ha, e1, e2, e3,
              heapAssign_error hb3 stepMA30 hs4]
          rw [eh]
          left
          rw [create_features, hs1]
          show (stepMA5 f1).bind _ = _
          rw [hs2]
          show (stepMA10 f2).bind _ = _
          rw [hs3]
          show (stepMA30 f3).bind _ = _
          rw [hs4]
          rfl
        | ok f4 =>
          have e4 : heapAssign k3 h.length stepMA30 =
              .ok (k3.set h.length f4) := heapAssign_ok hb3 _ hs4
          have ha4 : (k3.set h.length f4).get? a = some f :=
            get?_set_preserved ha3 hab
          have hb4 : (k3.set h.length f4).get? h.length = some f4 :=
            get?_set_self hb3
          set k4 : Heap := k3.set h.length f4 with hk4
          cases hs5 : stepRSI f4 with
          | error e =>
            have eh : create_features_heap h a = .error e := by
              simp only [create_features_heap, ha, e1, e2, e3, e4,
                heapAssign_error hb4 stepRSI hs5]
            rw [eh]
            left
            rw [create_features, hs1]
            show (stepMA5 f1).bind _ = _
            rw [hs2]
            show (stepMA10 f2).bind _ = _
            rw [hs3]
            show (stepMA30 f3).bind _ = _
            rw [hs4]
            show (stepRSI f4).bind _ = _
            rw [hs5]
            rfl
          | ok f5 =>
            have e5 : heapAssign k4 h.length stepRSI =
                .ok (k4.set h.length f5) := heapAssign_ok hb4 _ hs5
            have ha5 : (k4.set h.length f5).get? a = some f :=
              get?_set_preserved ha4 hab
            have hb5 : (k4.set h.length f5).get? h.length = some f5 :=
              get?_set_self hb4
            set k5 : Heap := k4.set h.length f5 with hk5
            cases hs6 : stepStoch f5 with
            | error e =>
              have eh : create_features_heap h a = .error e := by
                simp only [create_features_heap, ha, e1, e2, e3, e4, e5,
                  heapAssign_error hb5 stepStoch hs6]
              rw [eh]
              left
              rw [create_features, hs1]
              show (stepMA5 f1).bind _ = _
              rw [hs2]
              show (stepMA10 f2).bind _ = _
              rw [hs3]
              show (stepMA30 f3).bind _ = _
              rw [hs4]
              show (stepRSI f4).bind _ = _
              rw [hs5]
              show stepStoch f5 = _
              exact hs6
            | ok f6 =>
              have e6 : heapAssign k5 h.length stepStoch =
                  .ok (k5.set h.length f6) := heapAssign_ok hb5 _ hs6
              have ha6 : (k5.set h.length f6).get? a = some f :=
                get?_set_preserved ha5 hab
              have hb6 : (k5.set h.length f6).get? h.length = some f6 :=
                get?_set_self hb5
              have eh : create_features_heap h a =
                  .ok (k5.set h.length f6, h.length) := by
                simp only [create_features_heap, ha, e1, e2, e3, e4, e5, e6]
              have ef : create_features f = .ok f6 := by
                rw [create_features, hs1]
                show (stepMA5 f1).bind _ = _
                rw [hs2]
                show (stepMA10 f2).bind _ = _
                rw [hs3]
                show (stepMA30 f3).bind _ = _
                rw [hs4]
                show (stepRSI f4).bind _ = _
                rw [hs5]
                show stepStoch f5 = _
                exact hs6
              rw [eh]
              exact ⟨ha6, hab, f6, ef, hb6⟩

theorem c10_no_mutation_witness :
    (match create_features_heap [exC1] 0 with
     | .ok pr =>
        pr.1.get? 0 = some exC1 ∧ pr.2 ≠ 0 ∧
        ∃ g2, create_features exC1 = .ok g2 ∧ pr.1.get? pr.2 = some g2
     | .error e =>
        create_features exC1 = .error e ∨ e = "invalid reference") :=
  c10_no_mutation [exC1] 0 exC1 rfl
